import Mathlib

/-!
Verification of the MCP SQL-server sample (src/main.py, src/sql_server_tools.py).

The development shallowly embeds the two Python modules:

* a `Json` value type models the JSON values that flow through the JSON-RPC
  envelopes, together with an executable model of CPython's
  `json.dumps(..., indent=2)` (including the repository's `CustomJSONEncoder`)
  and of `json.loads`;
* `PyVal` models the Python runtime values that a database row can contain
  (strings, ints, bools, `None`, `datetime`/`date`, `Decimal`, floats, lists,
  dicts).  Python floats are modelled as exact rationals; the rounding that
  `float(Decimal)` performs is not modelled;
* the tool executor (`get_tables`, `run_query`) is embedded with the database
  driver (`pyodbc`, an external collaborator) replaced by an explicit outcome
  oracle `DbOutcome`: the driver either hands back rows or raises;
* each HTTP route handler of src/main.py is embedded as a total function from
  the parsed request body (and the oracles) to an HTTP `Response`.
-/

namespace SqlMcp

/-- JSON values.  Numbers are split into `int` (arbitrary-precision Python
ints) and `float` (Python floats, modelled as exact rationals). -/
inductive Json where
  | null : Json
  | bool (b : Bool) : Json
  | int (n : Int) : Json
  | float (q : Rat) : Json
  | str (s : String) : Json
  | arr (xs : List Json) : Json
  | obj (kvs : List (String × Json)) : Json
  deriving Repr

mutual

/-- Boolean equality on `Json` (the automatic `DecidableEq` derivation does
not support nested inductives, so it is defined by hand). -/
def Json.eqb : Json → Json → Bool
  | .null, .null => true
  | .bool a, .bool b => a = b
  | .int a, .int b => a = b
  | .float a, .float b => a = b
  | .str a, .str b => a = b
  | .arr a, .arr b => Json.eqbL a b
  | .obj a, .obj b => Json.eqbF a b
  | _, _ => false

def Json.eqbL : List Json → List Json → Bool
  | [], [] => true
  | x :: xs, y :: ys => Json.eqb x y && Json.eqbL xs ys
  | _, _ => false

def Json.eqbF : List (String × Json) → List (String × Json) → Bool
  | [], [] => true
  | (k, v) :: xs, (k2, v2) :: ys => decide (k = k2) && Json.eqb v v2 && Json.eqbF xs ys
  | _, _ => false

end

mutual

theorem Json.eqb_eq : ∀ a b : Json, Json.eqb a b = true ↔ a = b
  | .null, b => by cases b <;> simp [Json.eqb]
  | .bool a, b => by cases b <;> simp [Json.eqb]
  | .int a, b => by cases b <;> simp [Json.eqb]
  | .float a, b => by cases b <;> simp [Json.eqb]
  | .str a, b => by cases b <;> simp [Json.eqb]
  | .arr a, b => by
      cases b <;> simp [Json.eqb]
      exact Json.eqbL_eq a _
  | .obj a, b => by
      cases b <;> simp [Json.eqb]
      exact Json.eqbF_eq a _

theorem Json.eqbL_eq : ∀ a b : List Json, Json.eqbL a b = true ↔ a = b
  | [], b => by cases b <;> simp [Json.eqbL]
  | x :: xs, b => by
      cases b <;> simp [Json.eqbL]
      rw [Json.eqb_eq, Json.eqbL_eq]

theorem Json.eqbF_eq : ∀ a b : List (String × Json), Json.eqbF a b = true ↔ a = b
  | [], b => by cases b <;> simp [Json.eqbF]
  | (k, v) :: xs, b => by
      cases b with
      | nil => simp [Json.eqbF]
      | cons y ys =>
        obtain ⟨k2, v2⟩ := y
        simp only [Json.eqbF, Bool.and_eq_true, decide_eq_true_eq, List.cons.injEq,
          Prod.mk.injEq]
        rw [Json.eqb_eq, Json.eqbF_eq]

end

instance : DecidableEq Json := fun a b => decidable_of_iff _ (Json.eqb_eq a b)

/-- Looking a key up in a parsed JSON object, the model of Python's
`dict.get(key)` on the dict that `json.loads` produced (an association list;
a well-formed parsed object has no duplicate keys, and lookup takes the
first occurrence). -/
def getKey (k : String) : List (String × Json) → Option Json
  | [] => none
  | (k2, v) :: rest => if k2 = k then some v else getKey k rest

/-- `dict.get(key)` on a JSON value that is an object; `none` when the key is
absent.  (On a non-object the Python attribute access raises instead; callers
model that branch explicitly.) -/
def Json.get (j : Json) (k : String) : Option Json :=
  match j with
  | .obj kvs => getKey k kvs
  | _ => none

/-- Python truthiness (`bool(x)`) of a JSON value. -/
def truthy : Json → Bool
  | .null => false
  | .bool b => b
  | .int n => n ≠ 0
  | .float q => q ≠ 0
  | .str s => s ≠ ""
  | .arr xs => !xs.isEmpty
  | .obj kvs => !kvs.isEmpty

/-- Python truthiness of a `dict.get` result (`None` is falsy). -/
def truthyO : Option Json → Bool
  | none => false
  | some v => truthy v

/-! ### Decimal rendering of numbers (Python `repr` of `int`) -/

/-- The ASCII digit character for `d < 10`. -/
def digitChar (d : Nat) : Char := Char.ofNat (48 + d)

/-- Decimal digits of a natural number, most significant first.  The fuel is
only there to make the recursion structural; `natChars` supplies enough. -/
def natCharsAux : Nat → Nat → List Char
  | 0, _ => []
  | fuel + 1, n => if n < 10 then [digitChar n] else natCharsAux fuel (n / 10) ++ [digitChar (n % 10)]

/-- Decimal digit string of a natural number, as Python's `repr`. -/
def natChars (n : Nat) : List Char := natCharsAux (n + 1) n

/-- Decimal digit string of an integer, as Python's `repr` (used both by
f-strings and by the JSON serialization of ints). -/
def intChars (n : Int) : List Char :=
  if n < 0 then '-' :: natChars n.natAbs else natChars n.natAbs

def natStr (n : Nat) : String := ⟨natChars n⟩

def intStr (n : Int) : String := ⟨intChars n⟩

/-! ### Python float `repr`

Python floats are modelled as exact rationals.  A double is always a dyadic
rational, so its denominator divides a power of ten; `floatRepr` prints that
exact decimal expansion (CPython's `repr` prints the shortest string that
round-trips, which for the dyadic value is this expansion or a rounding of
it — the difference is not load-bearing anywhere below, floats are outside
the verified serialization grammar). -/

/-- Least `k ≤ 1100` with `d ∣ 10^k` (1100 covers every positive double). -/
def pow10Exp (d : Nat) : Option Nat := (List.range 1100).find? (fun k => 10 ^ k % d = 0)

/-- Digits of `n` left-padded with zeros to width `w`. -/
def padDigits (w : Nat) (n : Nat) : List Char :=
  List.replicate (w - (natChars n).length) '0' ++ natChars n

def floatReprPos (q : Rat) : List Char :=
  match pow10Exp q.den with
  | some 0 => natChars q.num.natAbs ++ '.' :: ['0']
  | some (k + 1) =>
      let m := q.num.natAbs * 10 ^ (k + 1) / q.den
      natChars (m / 10 ^ (k + 1)) ++ '.' :: padDigits (k + 1) (m % 10 ^ (k + 1))
  | none => '0' :: '.' :: ['0']

def floatRepr (q : Rat) : List Char :=
  if q < 0 then '-' :: floatReprPos (-q) else floatReprPos q

/-! ### String escaping, as CPython `json.dumps` with the default
`ensure_ascii=True`: `"` and `\` get a backslash escape, the control
characters get their shorthand escapes or `\uXXXX`, and every character
outside printable ASCII is escaped as `\uXXXX` (a surrogate pair beyond the
BMP). -/

def hexDigit (n : Nat) : Char := if n < 10 then Char.ofNat (48 + n) else Char.ofNat (87 + n)

def hex4 (n : Nat) : List Char :=
  [hexDigit (n / 4096 % 16), hexDigit (n / 256 % 16), hexDigit (n / 16 % 16), hexDigit (n % 16)]

def uEsc (n : Nat) : List Char :=
  if n < 65536 then '\\' :: 'u' :: hex4 n
  else '\\' :: 'u' :: hex4 (55296 + (n - 65536) / 1024) ++ '\\' :: 'u' :: hex4 (56320 + (n - 65536) % 1024)

def escChar (c : Char) : List Char :=
  if c = '"' then ['\\', '"']
  else if c = '\\' then ['\\', '\\']
  else if c = '\n' then ['\\', 'n']
  else if c = '\t' then ['\\', 't']
  else if c = '\r' then ['\\', 'r']
  else if c.toNat = 8 then ['\\', 'b']
  else if c.toNat = 12 then ['\\', 'f']
  else if c.toNat < 32 ∨ 126 < c.toNat then uEsc c.toNat
  else [c]

def escList : List Char → List Char
  | [] => []
  | c :: rest => escChar c ++ escList rest

/-! ### The serializer: CPython `json.dumps(value, indent=2)`.

With `indent=2` the item separator is `",\n" + indent` and the key separator
is `": "`; empty containers print as `[]` / `{}` with no newline. -/

/-- `2*lvl` spaces of indentation. -/
def indC (lvl : Nat) : List Char := List.replicate (2 * lvl) ' '

mutual

/-- Characters of `json.dumps(v, indent=2)` at nesting level `lvl`. -/
def renV (lvl : Nat) : Json → List Char
  | .null => "null".data
  | .bool true => "true".data
  | .bool false => "false".data
  | .int n => intChars n
  | .float q => floatRepr q
  | .str s => '"' :: (escList s.data ++ ['"'])
  | .arr [] => ['[', ']']
  | .arr (x :: xs) =>
      '[' :: '\n' :: (indC (lvl + 1) ++ renV (lvl + 1) x ++ renA (lvl + 1) xs ++
        '\n' :: (indC lvl ++ [']']))
  | .obj [] => ['\x7b', '\x7d']
  | .obj ((k, v) :: kvs) =>
      '\x7b' :: '\n' :: (indC (lvl + 1) ++
        '"' :: (escList k.data ++ '"' :: ':' :: ' ' :: renV (lvl + 1) v) ++
        renO (lvl + 1) kvs ++ '\n' :: (indC lvl ++ ['\x7d']))

/-- The remaining array items after the first, each preceded by `",\n" + indent`. -/
def renA (lvl : Nat) : List Json → List Char
  | [] => []
  | x :: xs => ',' :: '\n' :: (indC lvl ++ renV lvl x ++ renA lvl xs)

/-- The remaining object fields after the first. -/
def renO (lvl : Nat) : List (String × Json) → List Char
  | [] => []
  | (k, v) :: kvs =>
      ',' :: '\n' :: (indC lvl ++ '"' :: (escList k.data ++ '"' :: ':' :: ' ' :: renV lvl v) ++
        renO lvl kvs)

end

/-- `json.dumps(v, indent=2)` (the serialization of a basic-typed value; the
encoder hooks that feed non-basic values into it are modelled separately
below). -/
def renderJ (v : Json) : String := ⟨renV 0 v⟩

/-! ### Python runtime values and the two encoders -/

/-- A `datetime.datetime` value (naive; the sample never attaches tzinfo,
pyodbc returns naive datetimes). -/
structure PyDateTime where
  year : Nat
  month : Nat
  day : Nat
  hour : Nat
  minute : Nat
  second : Nat
  microsecond : Nat
  deriving DecidableEq, Repr

/-- A `datetime.date` value. -/
structure PyDate where
  year : Nat
  month : Nat
  day : Nat
  deriving DecidableEq, Repr

/-- Digits of `n` zero-padded to width `w`, as a string piece. -/
def padN (w : Nat) (n : Nat) : List Char := padDigits w n

/-- `datetime.date.isoformat()`: `YYYY-MM-DD`. -/
def PyDate.isoformat (d : PyDate) : String :=
  ⟨padN 4 d.year ++ '-' :: padN 2 d.month ++ '-' :: padN 2 d.day⟩

/-- `datetime.datetime.isoformat()`: `YYYY-MM-DDTHH:MM:SS[.ffffff]`, the
microseconds printed only when non-zero. -/
def PyDateTime.isoformat (d : PyDateTime) : String :=
  ⟨padN 4 d.year ++ '-' :: padN 2 d.month ++ '-' :: padN 2 d.day ++
   'T' :: padN 2 d.hour ++ ':' :: padN 2 d.minute ++ ':' :: padN 2 d.second ++
   (if d.microsecond = 0 then [] else '.' :: padN 6 d.microsecond)⟩

/-- The Python values a query result (or a JSON-RPC body) can hold.  Floats
and `Decimal`s are modelled as exact rationals (`float(Decimal)` rounds to
the nearest double; that rounding is not modelled — the conversion is kept
exact). -/
inductive PyVal where
  | none : PyVal
  | bool (b : Bool) : PyVal
  | int (n : Int) : PyVal
  | float (q : Rat) : PyVal
  | str (s : String) : PyVal
  | datetime (d : PyDateTime) : PyVal
  | date (d : PyDate) : PyVal
  | decimal (q : Rat) : PyVal
  | list (xs : List PyVal) : PyVal
  | dict (kvs : List (String × PyVal)) : PyVal
  deriving Repr

mutual

def PyVal.eqb : PyVal → PyVal → Bool
  | .none, .none => true
  | .bool a, .bool b => a = b
  | .int a, .int b => a = b
  | .float a, .float b => a = b
  | .str a, .str b => a = b
  | .datetime a, .datetime b => a = b
  | .date a, .date b => a = b
  | .decimal a, .decimal b => a = b
  | .list a, .list b => PyVal.eqbL a b
  | .dict a, .dict b => PyVal.eqbF a b
  | _, _ => false

def PyVal.eqbL : List PyVal → List PyVal → Bool
  | [], [] => true
  | x :: xs, y :: ys => PyVal.eqb x y && PyVal.eqbL xs ys
  | _, _ => false

def PyVal.eqbF : List (String × PyVal) → List (String × PyVal) → Bool
  | [], [] => true
  | (k, v) :: xs, (k2, v2) :: ys => decide (k = k2) && PyVal.eqb v v2 && PyVal.eqbF xs ys
  | _, _ => false

end

mutual

theorem PyVal.eqb_iff : ∀ a b : PyVal, PyVal.eqb a b = true ↔ a = b
  | .none, b => by cases b <;> simp [PyVal.eqb]
  | .bool a, b => by cases b <;> simp [PyVal.eqb]
  | .int a, b => by cases b <;> simp [PyVal.eqb]
  | .float a, b => by cases b <;> simp [PyVal.eqb]
  | .str a, b => by cases b <;> simp [PyVal.eqb]
  | .datetime a, b => by cases b <;> simp [PyVal.eqb]
  | .date a, b => by cases b <;> simp [PyVal.eqb]
  | .decimal a, b => by cases b <;> simp [PyVal.eqb]
  | .list a, b => by
      cases b <;> simp [PyVal.eqb]
      exact PyVal.eqbL_iff a _
  | .dict a, b => by
      cases b <;> simp [PyVal.eqb]
      exact PyVal.eqbF_iff a _

theorem PyVal.eqbL_iff : ∀ a b : List PyVal, PyVal.eqbL a b = true ↔ a = b
  | [], b => by cases b <;> simp [PyVal.eqbL]
  | x :: xs, b => by
      cases b <;> simp [PyVal.eqbL]
      rw [PyVal.eqb_iff, PyVal.eqbL_iff]

theorem PyVal.eqbF_iff : ∀ a b : List (String × PyVal), PyVal.eqbF a b = true ↔ a = b
  | [], b => by cases b <;> simp [PyVal.eqbF]
  | (k, v) :: xs, b => by
      cases b with
      | nil => simp [PyVal.eqbF]
      | cons y ys =>
        obtain ⟨k2, v2⟩ := y
        simp only [PyVal.eqbF, Bool.and_eq_true, decide_eq_true_eq, List.cons.injEq,
          Prod.mk.injEq]
        rw [PyVal.eqb_iff, PyVal.eqbF_iff]

end

instance : DecidableEq PyVal := fun a b => decidable_of_iff _ (PyVal.eqb_iff a b)

/-- `CustomJSONEncoder.default` (src/main.py lines 20-28) on the one value it
is handed: datetimes and dates become their `isoformat()` string, `Decimal`s
become floats (`float(obj)`, the conversion kept exact here).  The
`hasattr(obj, '__dict__')` branch concerns user-defined objects, which are
outside the modelled value grammar. -/
def CustomJSONEncoder.default : PyVal → Option PyVal
  | .datetime d => some (.str d.isoformat)
  | .date d => some (.str d.isoformat)
  | .decimal q => some (.float q)
  | _ => Option.none

mutual

/-- The value actually serialized by `json.dumps(v, cls=CustomJSONEncoder)`:
basic types pass through, non-basic types go through
`CustomJSONEncoder.default` (total on the modelled grammar, so this dumps
never raises). -/
def normC : PyVal → Json
  | .none => .null
  | .bool b => .bool b
  | .int n => .int n
  | .float q => .float q
  | .str s => .str s
  | .datetime d => .str d.isoformat
  | .date d => .str d.isoformat
  | .decimal q => .float q
  | .list xs => .arr (normCL xs)
  | .dict kvs => .obj (normCF kvs)

def normCL : List PyVal → List Json
  | [] => []
  | x :: xs => normC x :: normCL xs

def normCF : List (String × PyVal) → List (String × Json)
  | [] => []
  | (k, v) :: kvs => (k, normC v) :: normCF kvs

end

mutual

/-- The value serialized by a plain `json.dumps(v)` (no custom encoder): the
base encoder's `default` raises `TypeError` on datetimes, dates and
`Decimal`s. -/
def normP : PyVal → Except String Json
  | .none => .ok .null
  | .bool b => .ok (.bool b)
  | .int n => .ok (.int n)
  | .float q => .ok (.float q)
  | .str s => .ok (.str s)
  | .datetime _ => .error "Object of type datetime is not JSON serializable"
  | .date _ => .error "Object of type date is not JSON serializable"
  | .decimal _ => .error "Object of type Decimal is not JSON serializable"
  | .list xs => (normPL xs).map .arr
  | .dict kvs => (normPF kvs).map .obj

def normPL : List PyVal → Except String (List Json)
  | [] => .ok []
  | x :: xs => do
      let v ← normP x
      let vs ← normPL xs
      .ok (v :: vs)

def normPF : List (String × PyVal) → Except String (List (String × Json))
  | [] => .ok []
  | (k, v) :: kvs => do
      let v2 ← normP v
      let kvs2 ← normPF kvs
      .ok ((k, v2) :: kvs2)

end

/-- `safe_json_dumps(obj, indent=2)` (src/main.py lines 30-32):
`json.dumps` with `CustomJSONEncoder`.  Total on the modelled grammar — the
custom `default` covers every non-basic constructor, so no exception can
escape. -/
def safe_json_dumps (v : PyVal) : String := renderJ (normC v)

/-- Plain `json.dumps(obj, indent=2)` (as called on src/main.py line 365,
without the custom encoder): raises `TypeError` on datetime/date/`Decimal`
values anywhere inside `v`. -/
def json_dumps (v : PyVal) : Except String String := (normP v).map renderJ

/-! ### The tool executor (src/sql_server_tools.py)

The database driver is an external collaborator; each call to it is modelled
by an explicit outcome: either the driver produces the result the query
computes over the database, or it raises with some message.  (The module
reads `SQL_SERVER_CONNECTION_STRING` from the environment with default `""`
at import time; the executors take that string as an argument.) -/

inductive DbOutcome (ρ : Type) where
  | ok (rows : ρ)
  | raises (msg : String)
  deriving DecidableEq, Repr

/-- One query result row, as built on src/sql_server_tools.py line 55:
`dict(zip(columns, row))`, an ordered mapping from column name to value. -/
def Row : Type := List (String × PyVal)

instance : DecidableEq Row := inferInstanceAs (DecidableEq (List (String × PyVal)))

/-- Embeds `get_tables` (src/sql_server_tools.py lines 23-38).  `db` is the
outcome of `pyodbc.connect(...)` + cursor execution + fetch of the
`TABLE_NAME` column: the list of table names, or a raised exception. -/
def get_tables (connStr : String) (db : DbOutcome (List String)) : List String :=
  if connStr = "" then ["Error: SQL_SERVER_CONNECTION_STRING not configured"]
  else
    match db with
    | .ok tables => tables
    | .raises e => ["Error: " ++ e]

/-- Embeds `run_query` (src/sql_server_tools.py lines 40-60).  `query` is the
value the handler passed (annotated `str` in the source but not enforced);
it is only forwarded to the driver, whose behaviour the outcome `db`
already fixes. -/
def run_query (connStr : String) (query : Json) (db : DbOutcome (List Row)) : List Row :=
  if connStr = "" then [[("error", .str "SQL_SERVER_CONNECTION_STRING not configured")]]
  else
    match db with
    | .ok results => results
    | .raises e => [[("error", .str e)]]

/-- The Python value `get_tables` returns (a `list[str]`). -/
def pyOfTables (ts : List String) : PyVal := .list (ts.map .str)

/-- The Python value `run_query` returns (a `list[dict[str, Any]]`). -/
def pyOfRows (rows : List Row) : PyVal := .list (rows.map .dict)

/-! ### Python `str()` of a JSON value, for the handlers' f-strings -/

mutual

/-- Python `repr` of a parsed-JSON value (strings with quote characters
inside would be repr-escaped by CPython; the model keeps them verbatim —
none of the verified statements depend on that corner). -/
def pyRepr : Json → String
  | .null => "None"
  | .bool true => "True"
  | .bool false => "False"
  | .int n => intStr n
  | .float q => ⟨floatRepr q⟩
  | .str s => "'" ++ s ++ "'"
  | .arr [] => "[]"
  | .arr (x :: xs) => "[" ++ pyRepr x ++ pyReprL xs ++ "]"
  | .obj [] => "\x7b\x7d"
  | .obj ((k, v) :: kvs) => "\x7b'" ++ k ++ "': " ++ pyRepr v ++ pyReprF kvs ++ "\x7d"

def pyReprL : List Json → String
  | [] => ""
  | x :: xs => ", " ++ pyRepr x ++ pyReprL xs

def pyReprF : List (String × Json) → String
  | [] => ""
  | (k, v) :: kvs => ", '" ++ k ++ "': " ++ pyRepr v ++ pyReprF kvs

end

/-- Python `str()` of a parsed-JSON value, as an f-string interpolates it. -/
def pyStr : Json → String
  | .str s => s
  | v => pyRepr v

/-- Python `str()` of a `dict.get` result (`None` prints as `"None"`). -/
def pyStrOpt : Option Json → String
  | Option.none => "None"
  | some v => pyStr v

/-- `str(AttributeError)` raised by `x.get(...)` when `x` is not a dict. -/
def noGetMsg (j : Json) : String :=
  let tn : String :=
    match j with
    | .null => "NoneType"
    | .bool _ => "bool"
    | .int _ => "int"
    | .float _ => "float"
    | .str _ => "str"
    | .arr _ => "list"
    | .obj _ => "dict"
  "'" ++ tn ++ "' object has no attribute 'get'"

/-- `str(fastapi.HTTPException(status_code, detail))`, which Starlette
renders as `"<code>: <detail>"`. -/
def httpExcMsg (code : Nat) (detail : String) : String :=
  natStr code ++ ": " ++ detail

/-! ### HTTP responses and the JSON-RPC envelope builders -/

/-- An HTTP response: a status code and the JSON body `JSONResponse`
serializes.  (FastAPI's `JSONResponse` defaults to status 200.) -/
structure Response where
  status : Nat
  body : Json
  deriving DecidableEq, Repr

/-- `JSONResponse(body)` with the default status 200. -/
def JSONResponse (body : Json) : Response := ⟨200, body⟩

/-- A JSON-RPC result envelope, in the field order the handlers build it. -/
def jrpcResult (id result : Json) : Json :=
  .obj [("jsonrpc", .str "2.0"), ("id", id), ("result", result)]

/-- A JSON-RPC error envelope. -/
def jrpcError (id : Json) (code : Int) (msg : String) : Json :=
  .obj [("jsonrpc", .str "2.0"), ("id", id),
        ("error", .obj [("code", .int code), ("message", .str msg)])]

/-- The `initialize` result payload (built identically on src/main.py lines
84-93, 107-116 and 273-282). -/
def serverInfoResult : Json :=
  .obj [("protocolVersion", .str "2024-11-05"),
        ("capabilities", .obj [("tools", .obj [])]),
        ("serverInfo", .obj [("name", .str "sql-mcp-server"), ("version", .str "1.0.0")])]

/-- The `result: {content: [{type: "text", text: ...}]}` payload of a
successful tool call. -/
def contentResult (text : String) : Json :=
  .obj [("content", .arr [.obj [("type", .str "text"), ("text", .str text)]])]

/-- The hardcoded tool list, built identically by `mcp_list_tools_handler`
(src/main.py lines 155-179) and `mcp_list_tools` (lines 297-321). -/
def tools_list_http : Json :=
  .arr [
    .obj [("name", .str "get_tables"),
          ("description", .str "Get all database tables"),
          ("inputSchema", .obj [("type", .str "object"),
                                ("properties", .obj []),
                                ("required", .arr [])])],
    .obj [("name", .str "run_query"),
          ("description", .str "Execute a SQL query"),
          ("inputSchema", .obj [("type", .str "object"),
                                ("properties", .obj [("query",
                                    .obj [("type", .str "string"),
                                          ("description", .str "SQL query to execute")])]),
                                ("required", .arr [.str "query"])])]]

/-! ### The HTTP MCP route handlers (src/main.py) -/

/-- Embeds `mcp_list_tools_handler` (src/main.py lines 151-190); `body` is
the parsed JSON-object request body. -/
def mcp_list_tools_handler (body : List (String × Json)) : Response :=
  JSONResponse (jrpcResult ((getKey "id" body).getD (.int 1)) (.obj [("tools", tools_list_http)]))

/-- The serialization step of `mcp_call_tool_handler` (src/main.py lines
231-236): `result` is always a `list` here (both executors return lists), so
the `isinstance(result, (dict, list))` test passes and `safe_json_dumps` is
used; the custom encoder covers every modelled value, so the
`except`-fallback to `str(result)` is dead code. -/
def result_text (result : PyVal) : String := safe_json_dumps result

/-- Embeds `mcp_call_tool_handler` (src/main.py lines 192-263).  The
handler's own `try/except` turns any raised exception (here: `.get` on a
non-dict `params`/`arguments`) into a -32603 error with status 500. -/
def mcp_call_tool_handler (connStr : String) (tdb : DbOutcome (List String))
    (qdb : DbOutcome (List Row)) (body : List (String × Json)) : Response :=
  let request_id := (getKey "id" body).getD (.int 1)
  let params := (getKey "params" body).getD (.obj [])
  match params with
  | .obj pkvs =>
    let tool_name := getKey "name" pkvs
    let arguments := (getKey "arguments" pkvs).getD (.obj [])
    if tool_name = some (.str "get_tables") then
      JSONResponse (jrpcResult request_id (contentResult (result_text (pyOfTables (get_tables connStr tdb)))))
    else if tool_name = some (.str "run_query") then
      match arguments with
      | .obj akvs =>
        let query := getKey "query" akvs
        if truthyO query = false then
          JSONResponse (jrpcError request_id (-32602) "Query parameter is required")
        else
          JSONResponse (jrpcResult request_id
            (contentResult (result_text (pyOfRows (run_query connStr (query.getD .null) qdb)))))
      | _ => ⟨500, jrpcError request_id (-32603) (noGetMsg arguments)⟩
    else
      JSONResponse (jrpcError request_id (-32601) ("Unknown tool: " ++ pyStrOpt tool_name))
  | _ => ⟨500, jrpcError request_id (-32603) (noGetMsg params)⟩

inductive HttpMethod where
  | get
  | post
  deriving DecidableEq, Repr

/-- Embeds `mcp_handler` (src/main.py lines 74-149), the `GET`/`POST /mcp`
endpoint.  `body` is the parsed JSON request body of a POST (a request whose
body fails to parse takes the outer `except` instead, not modelled as no
claim quantifies over unparsable bodies).  A non-object body makes
`body.get("method")` raise, which the outer `except` maps to -32603 with
status 500. -/
def mcp_handler (connStr : String) (tdb : DbOutcome (List String))
    (qdb : DbOutcome (List Row)) (meth : HttpMethod) (body : Json) : Response :=
  match meth with
  | .get => JSONResponse (jrpcResult (.int 1) serverInfoResult)
  | .post =>
    match body with
    | .obj kvs =>
      let method := getKey "method" kvs
      let request_id := (getKey "id" kvs).getD (.int 1)
      if method = some (.str "initialize") then
        JSONResponse (jrpcResult request_id serverInfoResult)
      else if method = some (.str "tools/list") then
        mcp_list_tools_handler kvs
      else if method = some (.str "tools/call") then
        mcp_call_tool_handler connStr tdb qdb kvs
      else
        JSONResponse (jrpcError request_id (-32601) ("Method not found: " ++ pyStrOpt method))
    | _ => ⟨500, jrpcError (.int 1) (-32603) (noGetMsg body)⟩

/-- Embeds `mcp_initialize` (src/main.py lines 265-283); `body.get("id")`
has no default, so a missing id echoes as `null`. -/
def mcp_initialize (body : Json) : Response :=
  match body with
  | .obj kvs => JSONResponse (jrpcResult ((getKey "id" kvs).getD .null) serverInfoResult)
  | _ => ⟨500, .str "Internal Server Error"⟩

/-- Embeds `mcp_list_tools` (src/main.py lines 285-332), the
`GET`/`POST /mcp/tools/list` endpoint.  `rb = Option.none` models a GET (or a
POST whose body failed to parse — the bare `except` on line 294); there is
no `try` around the rest, so a non-object POST body makes
`request_body.get` raise and the framework answers a plain 500. -/
def mcp_list_tools (rb : Option Json) : Response :=
  let request_body := rb.getD (.obj [])
  match request_body with
  | .obj kvs =>
      JSONResponse (jrpcResult ((getKey "id" kvs).getD (.int 1)) (.obj [("tools", tools_list_http)]))
  | _ => ⟨500, .str "Internal Server Error"⟩

/-- The `except` branch of `mcp_call_tool` (src/main.py lines 371-380):
every exception raised in the `try` (including the `HTTPException`s it
raises itself) becomes a JSON-RPC error with code -1 and HTTP status 500. -/
def toolCallExc (body : List (String × Json)) (msg : String) : Response :=
  ⟨500, jrpcError ((getKey "id" body).getD (.int 1)) (-1) msg⟩

/-- Embeds `mcp_call_tool` (src/main.py lines 334-380), the
`POST /mcp/tools/call` endpoint.  Differences from `mcp_call_tool_handler`:
the tool name and arguments fall back from `params` to the body top level
through Python `or`; errors are raised as `HTTPException`s that its own
`except` converts to code -1 / status 500; and the result is serialized with
plain `json.dumps` (line 365), not `safe_json_dumps` — a `TypeError` there
also lands in the `except`.  A non-object body makes `body.get` raise inside
the `except` handler itself, which the framework answers with a plain 500. -/
def mcp_call_tool (connStr : String) (tdb : DbOutcome (List String))
    (qdb : DbOutcome (List Row)) (body : Json) : Response :=
  match body with
  | .obj kvs =>
    let params := (getKey "params" kvs).getD (.obj [])
    match params with
    | .obj pkvs =>
      let pname := getKey "name" pkvs
      let tool_name := if truthyO pname then pname else getKey "name" kvs
      let pargs := getKey "arguments" pkvs
      let arguments := if truthyO pargs then pargs.getD (.obj [])
                       else (getKey "arguments" kvs).getD (.obj [])
      let request_id := (getKey "id" kvs).getD (.int 1)
      if tool_name = some (.str "get_tables") then
        match json_dumps (pyOfTables (get_tables connStr tdb)) with
        | .ok t => JSONResponse (jrpcResult request_id (contentResult t))
        | .error e => toolCallExc kvs e
      else if tool_name = some (.str "run_query") then
        match arguments with
        | .obj akvs =>
          let query := getKey "query" akvs
          if truthyO query = false then
            toolCallExc kvs (httpExcMsg 400 "Query parameter is required")
          else
            match json_dumps (pyOfRows (run_query connStr (query.getD .null) qdb)) with
            | .ok t => JSONResponse (jrpcResult request_id (contentResult t))
            | .error e => toolCallExc kvs e
        | _ => toolCallExc kvs (noGetMsg arguments)
      else toolCallExc kvs (httpExcMsg 400 ("Unknown tool: " ++ pyStrOpt tool_name))
    | _ => toolCallExc kvs (noGetMsg params)
  | _ => ⟨500, .str "Internal Server Error"⟩

/-! ### `/health` -/

/-- Embeds `health_check` (src/main.py lines 45-56).  The two environment
variables are passed as strings, `""` for unset (`bool(None) = bool("") =
False`, so presence and non-emptiness coincide).  The handler consults
nothing but the environment — no database oracle appears. -/
def health_check (apiKeys connStr : String) : Response :=
  JSONResponse (.obj [
    ("status", .str "healthy"),
    ("api_keys_configured", .bool (apiKeys ≠ "")),
    ("sql_connection_configured", .bool (connStr ≠ "")),
    ("implementations", .obj [("fastmcp_sse", .str "/sse"), ("http_mcp", .str "/mcp")])])

/-- Modelled from the spec: `api_key_auth.ensure_valid_api_key` is repository
code that is not under src/ (src/main.py line 39 installs it as an app-wide
dependency).  The spec only says the API keys are "checked by an external
collaborator" against the comma-separated `API_KEYS` list, so the check is
modelled by its observable outcome: the request either passes and reaches
the route handler, or is rejected with some response before the handler
runs. -/
inductive AuthOutcome where
  | pass
  | reject (resp : Response)

/-- A `GET /health` request as routed through the app of src/main.py line
39: the API-key dependency first, then `health_check`. -/
def health_route (auth : AuthOutcome) (apiKeys connStr : String) : Response :=
  match auth with
  | .pass => health_check apiKeys connStr
  | .reject r => r

/-! ### Response observers (spec-side, for stating the claims) -/

/-- The `result` field of a response body. -/
def Response.resultOf (r : Response) : Option Json := r.body.get "result"

/-- The `error` field of a response body. -/
def Response.errorOf (r : Response) : Option Json := r.body.get "error"

/-- The `error.code` field of a response body. -/
def Response.errCode (r : Response) : Option Json :=
  (r.errorOf).bind (fun e => e.get "code")

/-- The `id` field of a response body. -/
def Response.idOf (r : Response) : Option Json := r.body.get "id"

/-- The `result.content[0].text` string of a response body. -/
def Response.contentText (r : Response) : Option String :=
  match r.resultOf with
  | some res =>
    match res.get "content" with
    | some (.arr (c :: _)) =>
      match c.get "text" with
      | some (.str t) => some t
      | _ => Option.none
    | _ => Option.none
  | _ => Option.none

/-! ### A JSON parser (the model of `json.loads`), to state the
serialize-then-parse round trip the spec claims. -/

def isWsC (c : Char) : Bool := c = ' ' || c = '\n' || c = '\t' || c = '\r'

def skipWs : List Char → List Char
  | [] => []
  | c :: r => if isWsC c then skipWs r else c :: r

def hexVal (c : Char) : Option Nat :=
  if c.isDigit then some (c.toNat - 48)
  else if 97 ≤ c.toNat ∧ c.toNat ≤ 102 then some (c.toNat - 87)
  else if 65 ≤ c.toNat ∧ c.toNat ≤ 70 then some (c.toNat - 55)
  else Option.none

mutual

/-- String-body scanner: the input starts right after the opening quote;
`acc` holds the decoded characters in reverse. -/
def parseStrAux : List Char → List Char → Option (String × List Char)
  | _, [] => Option.none
  | acc, c :: r =>
    if c = '"' then some (⟨acc.reverse⟩, r)
    else if c = '\\' then parseEscape acc r
    else parseStrAux (c :: acc) r

/-- Decode the escape sequence after a backslash. -/
def parseEscape : List Char → List Char → Option (String × List Char)
  | _, [] => Option.none
  | acc, e :: r2 =>
    if e = '"' then parseStrAux ('"' :: acc) r2
    else if e = '\\' then parseStrAux ('\\' :: acc) r2
    else if e = '/' then parseStrAux ('/' :: acc) r2
    else if e = 'n' then parseStrAux ('\n' :: acc) r2
    else if e = 't' then parseStrAux ('\t' :: acc) r2
    else if e = 'r' then parseStrAux ('\r' :: acc) r2
    else if e = 'b' then parseStrAux (Char.ofNat 8 :: acc) r2
    else if e = 'f' then parseStrAux (Char.ofNat 12 :: acc) r2
    else if e = 'u' then parseHex4 acc r2
    else Option.none

/-- Decode the four hex digits of a `\uXXXX` escape. -/
def parseHex4 : List Char → List Char → Option (String × List Char)
  | acc, h1 :: h2 :: h3 :: h4 :: r3 =>
    match hexVal h1, hexVal h2, hexVal h3, hexVal h4 with
    | some a, some b, some c2, some d =>
        parseStrAux (Char.ofNat (4096 * a + 256 * b + 16 * c2 + d) :: acc) r3
    | _, _, _, _ => Option.none
  | _, _ => Option.none

end

/-- Split a leading run of decimal digits off the input. -/
def takeDigits : List Char → List Char × List Char
  | [] => ([], [])
  | c :: r =>
    if c.isDigit then
      let (ds, rest) := takeDigits r
      (c :: ds, rest)
    else ([], c :: r)

def digitVal (c : Char) : Nat := c.toNat - 48

def valDigits (ds : List Char) : Nat := ds.foldl (fun a c => 10 * a + digitVal c) 0

/-- Parse a non-negative JSON number (integer, or `digits.digits` float). -/
def parseNumNN (s : List Char) : Option (Json × List Char) :=
  let (ds, rest) := takeDigits s
  if ds = [] then Option.none
  else
    match rest with
    | [] => some (.int (valDigits ds), [])
    | c2 :: r2 =>
      if c2 = '.' then
        let (fs, rest2) := takeDigits r2
        if fs = [] then Option.none
        else some (.float (mkRat (valDigits ds * 10 ^ fs.length + valDigits fs) (10 ^ fs.length)), rest2)
      else some (.int (valDigits ds), c2 :: r2)

def negJ : Json → Json
  | .int n => .int (-n)
  | .float q => .float (-q)
  | v => v

def parseNum : List Char → Option (Json × List Char)
  | [] => Option.none
  | c :: r =>
    if c = '-' then (parseNumNN r).map (fun p => (negJ p.1, p.2))
    else parseNumNN (c :: r)

mutual

/-- Recursive-descent JSON value parser.  The fuel argument only bounds the
recursion (it falls by one on every sub-parse); `jsonParse` supplies
`length + 1`, which the round-trip lemmas show is always enough for a
serialized value. -/
def parseVal : Nat → List Char → Option (Json × List Char)
  | 0, _ => Option.none
  | fuel + 1, s =>
    match skipWs s with
    | [] => Option.none
    | c :: r =>
      if c.isDigit ∨ c = '-' then parseNum (c :: r)
      else if c = '"' then (parseStrAux [] r).map (fun p => (.str p.1, p.2))
      else if c = '[' then
        match skipWs r with
        | [] => Option.none
        | c2 :: r2 =>
          if c2 = ']' then some (.arr [], r2)
          else do
            let (x, r3) ← parseVal fuel (c2 :: r2)
            let (xs, r4) ← parseArrTail fuel r3
            some (.arr (x :: xs), r4)
      else if c = '\x7b' then
        match skipWs r with
        | [] => Option.none
        | c2 :: r2 =>
          if c2 = '\x7d' then some (.obj [], r2)
          else if c2 = '"' then do
            let (k, r3) ← parseStrAux [] r2
            match skipWs r3 with
            | [] => Option.none
            | c3 :: r4 =>
              if c3 = ':' then do
                let (v, r5) ← parseVal fuel r4
                let (kvs, r6) ← parseObjTail fuel r5
                some (.obj ((k, v) :: kvs), r6)
              else Option.none
          else Option.none
      else if c = 't' then
        match r with
        | c1 :: c2 :: c3 :: r2 =>
          if c1 = 'r' ∧ c2 = 'u' ∧ c3 = 'e' then some (.bool true, r2) else Option.none
        | _ => Option.none
      else if c = 'f' then
        match r with
        | c1 :: c2 :: c3 :: c4 :: r2 =>
          if c1 = 'a' ∧ c2 = 'l' ∧ c3 = 's' ∧ c4 = 'e' then some (.bool false, r2)
          else Option.none
        | _ => Option.none
      else if c = 'n' then
        match r with
        | c1 :: c2 :: c3 :: r2 =>
          if c1 = 'u' ∧ c2 = 'l' ∧ c3 = 'l' then some (.null, r2) else Option.none
        | _ => Option.none
      else Option.none

/-- After one array element: either `]` closes the array or `,` precedes the
next element. -/
def parseArrTail : Nat → List Char → Option (List Json × List Char)
  | 0, _ => Option.none
  | fuel + 1, s =>
    match skipWs s with
    | [] => Option.none
    | c :: r =>
      if c = ']' then some ([], r)
      else if c = ',' then do
        let (x, r2) ← parseVal fuel r
        let (xs, r3) ← parseArrTail fuel r2
        some (x :: xs, r3)
      else Option.none

/-- After one object field: either `}` closes the object or `,` precedes the
next `"key": value` pair. -/
def parseObjTail : Nat → List Char → Option (List (String × Json) × List Char)
  | 0, _ => Option.none
  | fuel + 1, s =>
    match skipWs s with
    | [] => Option.none
    | c :: r =>
      if c = '\x7d' then some ([], r)
      else if c = ',' then
        match skipWs r with
        | [] => Option.none
        | c2 :: r2 =>
          if c2 = '"' then do
            let (k, r3) ← parseStrAux [] r2
            match skipWs r3 with
            | [] => Option.none
            | c3 :: r4 =>
              if c3 = ':' then do
                let (v, r5) ← parseVal fuel r4
                let (kvs, r6) ← parseObjTail fuel r5
                some ((k, v) :: kvs, r6)
              else Option.none
          else Option.none
      else Option.none

end

/-- The model of `json.loads`: parse one value and require only whitespace
after it. -/
def jsonParse (s : String) : Option Json :=
  match parseVal (s.length + 1) s.data with
  | some (v, rest) => if skipWs rest = [] then some v else Option.none
  | Option.none => Option.none

/-! ### Round-trip lemmas: digits -/

theorem digitChar_isDigit (n : Nat) (h : n < 10) : (digitChar n).isDigit = true := by
  interval_cases n <;> decide

theorem digitVal_digitChar (n : Nat) (h : n < 10) : digitVal (digitChar n) = n := by
  interval_cases n <;> decide

theorem ne_of_isDigit {c x : Char} (hx : x.isDigit = false) (h : c.isDigit = true) : c ≠ x := by
  intro he
  rw [he, hx] at h
  cases h

theorem valDigits_append (ds : List Char) (c : Char) :
    valDigits (ds ++ [c]) = 10 * valDigits ds + digitVal c := by
  simp [valDigits, List.foldl_append]

theorem natCharsAux_spec :
    ∀ fuel n, n < fuel →
      natCharsAux fuel n ≠ [] ∧ (∀ c ∈ natCharsAux fuel n, c.isDigit = true) ∧
        valDigits (natCharsAux fuel n) = n := by
  intro fuel
  induction fuel with
  | zero => omega
  | succ f ih =>
    intro n hn
    by_cases h10 : n < 10
    · refine ⟨by simp [natCharsAux, h10], ?_, ?_⟩
      · simpa [natCharsAux, h10] using digitChar_isDigit n h10
      · simp [natCharsAux, h10, valDigits, digitVal_digitChar n h10]
    · have hdiv : n / 10 < f := by omega
      obtain ⟨h1, h2, h3⟩ := ih (n / 10) hdiv
      refine ⟨by simp [natCharsAux, h10], ?_, ?_⟩
      · intro c hc
        simp only [natCharsAux, if_neg h10, List.mem_append, List.mem_singleton] at hc
        rcases hc with hc | hc
        · exact h2 c hc
        · rw [hc]; exact digitChar_isDigit _ (by omega)
      · simp only [natCharsAux, if_neg h10, valDigits_append, h3,
          digitVal_digitChar _ (by omega : n % 10 < 10)]
        omega

theorem natChars_spec (n : Nat) :
    natChars n ≠ [] ∧ (∀ c ∈ natChars n, c.isDigit = true) ∧ valDigits (natChars n) = n :=
  natCharsAux_spec (n + 1) n (by omega)

theorem takeDigits_append {ds rest : List Char} (hds : ∀ c ∈ ds, c.isDigit = true)
    (hrest : ∀ c r, rest = c :: r → c.isDigit = false) :
    takeDigits (ds ++ rest) = (ds, rest) := by
  induction ds with
  | nil =>
    cases rest with
    | nil => rfl
    | cons c r => simp [takeDigits, hrest c r rfl]
  | cons c ds2 ih =>
    have hc : c.isDigit = true := hds c (by simp)
    have := ih (fun x hx => hds x (by simp [hx]))
    simp [takeDigits, hc, this]

/-- The stop condition for greedy number parsing: the remaining input does
not begin with a digit or a decimal point. -/
def tailOKb : List Char → Bool
  | [] => true
  | c :: _ => !c.isDigit && !(c = '.')

theorem parseNumNN_natChars (m : Nat) {rest : List Char} (hrest : tailOKb rest = true) :
    parseNumNN (natChars m ++ rest) = some (.int m, rest) := by
  obtain ⟨h1, h2, h3⟩ := natChars_spec m
  have hr : ∀ c r, rest = c :: r → c.isDigit = false := by
    intro c r he
    rw [he] at hrest
    simp [tailOKb] at hrest
    exact hrest.1
  rw [parseNumNN, takeDigits_append h2 hr]
  simp only [if_neg h1]
  cases rest with
  | nil => simp [h3]
  | cons c r =>
    have hc : ¬(c = '.') := by
      intro he
      rw [he] at hrest
      simp [tailOKb] at hrest
    simp [hc, h3]

theorem parseNum_intChars (n : Int) {rest : List Char} (hrest : tailOKb rest = true) :
    parseNum (intChars n ++ rest) = some (.int n, rest) := by
  by_cases hneg : n < 0
  · obtain ⟨h1, h2, h3⟩ := natChars_spec n.natAbs
    rw [intChars, if_pos hneg, List.cons_append, parseNum, if_pos rfl,
      parseNumNN_natChars n.natAbs hrest]
    have h4 : -(n.natAbs : Int) = n := by omega
    show some (Json.int (-(n.natAbs : Int)), rest) = some (Json.int n, rest)
    rw [h4]
  · rw [intChars, if_neg hneg]
    obtain ⟨h1, h2, h3⟩ := natChars_spec n.natAbs
    cases hnc : natChars n.natAbs with
    | nil => exact absurd hnc h1
    | cons c ds =>
      have hc : c.isDigit = true := by
        apply h2
        rw [hnc]; simp
      have hcm : ¬(c = '-') := ne_of_isDigit (by decide) hc
      show parseNum (c :: (ds ++ rest)) = some (Json.int n, rest)
      rw [parseNum, if_neg hcm]
      have he : c :: (ds ++ rest) = natChars n.natAbs ++ rest := by
        rw [hnc]; simp
      rw [he, parseNumNN_natChars n.natAbs hrest]
      have h4 : ((n.natAbs : Nat) : Int) = n := by omega
      rw [h4]

/-! ### Round-trip lemmas: strings and whitespace -/

/-- Printable-ASCII characters: the fragment of the string grammar on which
the serializer model is proven faithful and inverted by the parser (`"` and
`\` included — they round-trip through their escapes). -/
def asciiOK (c : Char) : Bool := 32 ≤ c.toNat && c.toNat ≤ 126

theorem escChar_ascii {c : Char} (h : asciiOK c = true) (hq : c ≠ '"') (hb : c ≠ '\\') :
    escChar c = [c] := by
  simp only [asciiOK, Bool.and_eq_true, decide_eq_true_eq] at h
  have h1 : ¬(c = '\n') := by intro he; rw [he] at h; exact absurd h (by decide)
  have h2 : ¬(c = '\t') := by intro he; rw [he] at h; exact absurd h (by decide)
  have h3 : ¬(c = '\r') := by intro he; rw [he] at h; exact absurd h (by decide)
  have h4 : ¬(c.toNat = 8) := by omega
  have h5 : ¬(c.toNat = 12) := by omega
  have h6 : ¬(c.toNat < 32 ∨ 126 < c.toNat) := by omega
  rw [escChar, if_neg hq, if_neg hb, if_neg h1, if_neg h2, if_neg h3, if_neg h4, if_neg h5,
    if_neg h6]

theorem parseStrAux_quote (acc r : List Char) :
    parseStrAux acc ('"' :: r) = some (⟨acc.reverse⟩, r) := by
  simp [parseStrAux]

theorem parseStrAux_esc_quote (acc r : List Char) :
    parseStrAux acc ('\\' :: '"' :: r) = parseStrAux ('"' :: acc) r := by
  simp [parseStrAux, parseEscape]

theorem parseStrAux_esc_bs (acc r : List Char) :
    parseStrAux acc ('\\' :: '\\' :: r) = parseStrAux ('\\' :: acc) r := by
  simp [parseStrAux, parseEscape]

theorem parseStrAux_other (acc : List Char) {c : Char} (r : List Char) (hq : c ≠ '"')
    (hb : c ≠ '\\') : parseStrAux acc (c :: r) = parseStrAux (c :: acc) r := by
  rw [parseStrAux, if_neg hq, if_neg hb]

theorem parseStrAux_esc :
    ∀ (cs : List Char) (acc rest : List Char), (∀ c ∈ cs, asciiOK c = true) →
      parseStrAux acc (escList cs ++ '"' :: rest) = some (⟨acc.reverse ++ cs⟩, rest) := by
  intro cs
  induction cs with
  | nil =>
    intro acc rest _
    show parseStrAux acc ('"' :: rest) = _
    rw [parseStrAux_quote]
    simp
  | cons c cs2 ih =>
    intro acc rest hok
    have hc : asciiOK c = true := hok c (by simp)
    have hcs : ∀ x ∈ cs2, asciiOK x = true := fun x hx => hok x (by simp [hx])
    by_cases hq : c = '"'
    · subst hq
      show parseStrAux acc ('\\' :: '"' :: (escList cs2 ++ '"' :: rest)) = _
      rw [parseStrAux_esc_quote, ih ('"' :: acc) rest hcs]
      simp
    · by_cases hb : c = '\\'
      · subst hb
        show parseStrAux acc ('\\' :: '\\' :: (escList cs2 ++ '"' :: rest)) = _
        rw [parseStrAux_esc_bs, ih ('\\' :: acc) rest hcs]
        simp
      · have he : escList (c :: cs2) ++ '"' :: rest = c :: (escList cs2 ++ '"' :: rest) := by
          show (escChar c ++ escList cs2) ++ '"' :: rest = _
          rw [escChar_ascii hc hq hb]
          simp
        rw [he, parseStrAux_other acc _ hq hb, ih (c :: acc) rest hcs]
        simp

theorem skipWs_cons_not {c : Char} {r : List Char} (h : isWsC c = false) :
    skipWs (c :: r) = c :: r := by
  simp [skipWs, h]

theorem skipWs_replicateSp (m : Nat) (l : List Char) :
    skipWs (List.replicate m ' ' ++ l) = skipWs l := by
  induction m with
  | zero => rfl
  | succ k ih => simpa [skipWs, List.replicate_succ] using ih

theorem skipWs_nl_ind (k : Nat) (l : List Char) :
    skipWs ('\n' :: (indC k ++ l)) = skipWs l := by
  show skipWs ('\n' :: (indC k ++ l)) = skipWs l
  rw [skipWs]
  simp only [if_pos (by decide : isWsC '\n' = true)]
  exact skipWs_replicateSp (2 * k) l

theorem skipWs_idem (l : List Char) : skipWs (skipWs l) = skipWs l := by
  induction l with
  | nil => rfl
  | cons c r ih =>
    by_cases h : isWsC c = true
    · simpa [skipWs, h] using ih
    · have h2 : isWsC c = false := by simpa using h
      rw [skipWs_cons_not h2, skipWs_cons_not h2]

theorem parseVal_skipWs (f : Nat) (s : List Char) : parseVal f (skipWs s) = parseVal f s := by
  cases f with
  | zero => rfl
  | succ f2 => rw [parseVal, parseVal, skipWs_idem]

/-! ### Size measures and the renderable grammar -/

mutual

/-- The parser fuel a serialized value needs. -/
def jsizeV : Json → Nat
  | .null => 1
  | .bool _ => 1
  | .int _ => 1
  | .float _ => 1
  | .str _ => 1
  | .arr [] => 1
  | .arr (x :: xs) => 1 + jsizeV x + jsizeL xs
  | .obj [] => 1
  | .obj ((_, v) :: kvs) => 1 + jsizeV v + jsizeF kvs

def jsizeL : List Json → Nat
  | [] => 1
  | x :: xs => 1 + jsizeV x + jsizeL xs

def jsizeF : List (String × Json) → Nat
  | [] => 1
  | (_, v) :: kvs => 1 + jsizeV v + jsizeF kvs

end

theorem jsizeV_pos (v : Json) : 1 ≤ jsizeV v := by
  cases v with
  | arr xs => cases xs <;> simp [jsizeV] <;> omega
  | obj kvs =>
    cases kvs with
    | nil => simp [jsizeV]
    | cons kv rest => obtain ⟨k, v⟩ := kv; simp [jsizeV]; omega
  | _ => simp [jsizeV]

theorem jsizeL_pos (xs : List Json) : 1 ≤ jsizeL xs := by
  cases xs <;> simp [jsizeL] <;> omega

theorem jsizeF_pos (kvs : List (String × Json)) : 1 ≤ jsizeF kvs := by
  cases kvs with
  | nil => simp [jsizeF]
  | cons kv rest => obtain ⟨k, v⟩ := kv; simp [jsizeF]; omega

mutual

/-- The grammar on which serialization is proven invertible: no floats, and
every string (and key) is printable ASCII.  Ints, bools, nulls, nesting —
everything else — is unrestricted. -/
def renOKV : Json → Bool
  | .null => true
  | .bool _ => true
  | .int _ => true
  | .float _ => false
  | .str s => s.data.all asciiOK
  | .arr xs => renOKL xs
  | .obj kvs => renOKF kvs

def renOKL : List Json → Bool
  | [] => true
  | x :: xs => renOKV x && renOKL xs

def renOKF : List (String × Json) → Bool
  | [] => true
  | (k, v) :: kvs => k.data.all asciiOK && renOKV v && renOKF kvs

end

theorem digit_not_ws {c : Char} (hc : c.isDigit = true) : isWsC c = false := by
  have h1 := ne_of_isDigit (x := ' ') (by decide) hc
  have h2 := ne_of_isDigit (x := '\n') (by decide) hc
  have h3 := ne_of_isDigit (x := '\t') (by decide) hc
  have h4 := ne_of_isDigit (x := '\r') (by decide) hc
  simp [isWsC, h1, h2, h3, h4]

/-- Every serialized value starts with a non-whitespace character that is
neither `]` nor `}`. -/
theorem renV_head (lvl : Nat) (v : Json) (h : renOKV v = true) :
    ∃ c r, renV lvl v = c :: r ∧ isWsC c = false ∧ c ≠ ']' ∧ c ≠ '\x7d' := by
  cases v with
  | null => exact ⟨'n', _, rfl, by decide⟩
  | bool b =>
    cases b with
    | true => exact ⟨'t', _, rfl, by decide⟩
    | false => exact ⟨'f', _, rfl, by decide⟩
  | int n =>
    by_cases hneg : n < 0
    · refine ⟨'-', natChars n.natAbs, ?_, by decide⟩
      simp [renV, intChars, hneg]
    · obtain ⟨h1, h2, _⟩ := natChars_spec n.natAbs
      cases hnc : natChars n.natAbs with
      | nil => exact absurd hnc h1
      | cons c ds =>
        have hc : c.isDigit = true := h2 c (by rw [hnc]; simp)
        refine ⟨c, ds, ?_, digit_not_ws hc, ne_of_isDigit (by decide) hc,
          ne_of_isDigit (by decide) hc⟩
        simp [renV, intChars, hneg, hnc]
  | float q => simp [renOKV] at h
  | str s => exact ⟨'"', _, rfl, by decide⟩
  | arr xs =>
    cases xs with
    | nil => exact ⟨'[', _, rfl, by decide⟩
    | cons x rest => exact ⟨'[', _, rfl, by decide⟩
  | obj kvs =>
    cases kvs with
    | nil => exact ⟨'\x7b', _, rfl, by decide⟩
    | cons kv rest =>
      obtain ⟨k, v⟩ := kv
      exact ⟨'\x7b', _, rfl, by decide⟩

theorem skipWs_renV (lvl : Nat) (v : Json) (h : renOKV v = true) (rest : List Char) :
    skipWs (renV lvl v ++ rest) = renV lvl v ++ rest := by
  obtain ⟨c, r, he, hws, _, _⟩ := renV_head lvl v h
  rw [he, List.cons_append, skipWs_cons_not hws]

theorem tailOK_renA (lvl : Nat) (xs : List Json) (l : List Char) :
    tailOKb (renA lvl xs ++ '\n' :: l) = true := by
  cases xs <;> simp [renA, tailOKb]

theorem tailOK_renO (lvl : Nat) (kvs : List (String × Json)) (l : List Char) :
    tailOKb (renO lvl kvs ++ '\n' :: l) = true := by
  cases kvs with
  | nil => simp [renO, tailOKb]
  | cons kv rest => obtain ⟨k, v⟩ := kv; simp [renO, tailOKb]


theorem parseVal_int (f : Nat) (n : Int) {rest : List Char} (htail : tailOKb rest = true) :
    parseVal (f + 1) (intChars n ++ rest) = some (.int n, rest) := by
  have hpn := parseNum_intChars n htail
  by_cases hneg : n < 0
  · have he : intChars n = '-' :: natChars n.natAbs := by rw [intChars, if_pos hneg]
    rw [he, List.cons_append] at hpn ⊢
    rw [parseVal, skipWs_cons_not (by decide)]
    simpa using hpn
  · have he : intChars n = natChars n.natAbs := by rw [intChars, if_neg hneg]
    obtain ⟨h1, h2, h3⟩ := natChars_spec n.natAbs
    cases hnc : natChars n.natAbs with
    | nil => exact absurd hnc h1
    | cons c ds =>
      have hc : c.isDigit = true := h2 c (by rw [hnc]; simp)
      rw [he, hnc, List.cons_append] at hpn ⊢
      rw [parseVal, skipWs_cons_not (digit_not_ws hc)]
      simpa [hc] using hpn

theorem parseVal_null (f : Nat) (rest : List Char) :
    parseVal (f + 1) ('n' :: 'u' :: 'l' :: 'l' :: rest) = some (.null, rest) := by
  rw [parseVal, skipWs_cons_not (by decide)]
  simp

theorem parseVal_true (f : Nat) (rest : List Char) :
    parseVal (f + 1) ('t' :: 'r' :: 'u' :: 'e' :: rest) = some (.bool true, rest) := by
  rw [parseVal, skipWs_cons_not (by decide)]
  simp

theorem parseVal_false (f : Nat) (rest : List Char) :
    parseVal (f + 1) ('f' :: 'a' :: 'l' :: 's' :: 'e' :: rest) = some (.bool false, rest) := by
  rw [parseVal, skipWs_cons_not (by decide)]
  simp

theorem parseVal_str (f : Nat) (s : String) {rest : List Char}
    (hok : ∀ c ∈ s.data, asciiOK c = true) :
    parseVal (f + 1) ('"' :: (escList s.data ++ ['"']) ++ rest) = some (.str s, rest) := by
  rw [List.cons_append, parseVal, skipWs_cons_not (by decide)]
  have he : (escList s.data ++ ['"']) ++ rest = escList s.data ++ '"' :: rest := by simp
  rw [he]
  simp [parseStrAux_esc s.data [] rest hok]

theorem parseVal_emptyArr (f : Nat) (rest : List Char) :
    parseVal (f + 1) ('[' :: ']' :: rest) = some (.arr [], rest) := by
  rw [parseVal, skipWs_cons_not (by decide)]
  simp [skipWs_cons_not (show isWsC ']' = false by decide)]

theorem parseVal_emptyObj (f : Nat) (rest : List Char) :
    parseVal (f + 1) ('\x7b' :: '\x7d' :: rest) = some (.obj [], rest) := by
  rw [parseVal, skipWs_cons_not (by decide)]
  simp [skipWs_cons_not (show isWsC '\x7d' = false by decide)]

theorem skipWs_sp (l : List Char) : skipWs (' ' :: l) = skipWs l := by
  rw [skipWs]
  simp only [if_pos (show isWsC ' ' = true by decide)]

theorem parseVal_sp (f : Nat) (l : List Char) : parseVal f (' ' :: l) = parseVal f l := by
  rw [← parseVal_skipWs f (' ' :: l), skipWs_sp, parseVal_skipWs]

theorem parse_ren_aux : ∀ f : Nat,
    (∀ v lvl rest, renOKV v = true → jsizeV v ≤ f → tailOKb rest = true →
      parseVal f (renV lvl v ++ rest) = some (v, rest)) ∧
    (∀ xs lvl rest, renOKL xs = true → jsizeL xs ≤ f → tailOKb rest = true →
      parseArrTail f (renA (lvl + 1) xs ++ '\n' :: (indC lvl ++ ']' :: rest)) = some (xs, rest)) ∧
    (∀ kvs lvl rest, renOKF kvs = true → jsizeF kvs ≤ f → tailOKb rest = true →
      parseObjTail f (renO (lvl + 1) kvs ++ '\n' :: (indC lvl ++ '\x7d' :: rest)) =
        some (kvs, rest)) := by
  intro f
  induction f with
  | zero =>
    refine ⟨fun v _ _ _ hsz _ => absurd hsz (by have := jsizeV_pos v; omega),
            fun xs _ _ _ hsz _ => absurd hsz (by have := jsizeL_pos xs; omega),
            fun kvs _ _ _ hsz _ => absurd hsz (by have := jsizeF_pos kvs; omega)⟩
  | succ f ih =>
    obtain ⟨ihV, ihA, ihO⟩ := ih
    refine ⟨?_, ?_, ?_⟩
    · intro v lvl rest hok hsz htail
      cases v with
      | null => exact parseVal_null f rest
      | bool b =>
        cases b with
        | true => exact parseVal_true f rest
        | false => exact parseVal_false f rest
      | int n => exact parseVal_int f n htail
      | float q => simp [renOKV] at hok
      | str s =>
        have hs : ∀ c ∈ s.data, asciiOK c = true := by
          simpa [renOKV, List.all_eq_true] using hok
        exact parseVal_str f s hs
      | arr xs =>
        cases xs with
        | nil => exact parseVal_emptyArr f rest
        | cons x xs2 =>
          obtain ⟨hokx, hokxs⟩ : renOKV x = true ∧ renOKL xs2 = true := by
            simpa [renOKV, renOKL] using hok
          have hsz2 : 1 + jsizeV x + jsizeL xs2 ≤ f + 1 := by simpa [jsizeV] using hsz
          have hszx : jsizeV x ≤ f := by have := jsizeL_pos xs2; omega
          have hszxs : jsizeL xs2 ≤ f := by have := jsizeV_pos x; omega
          obtain ⟨c, cr, hce, hws, hbr, _⟩ := renV_head (lvl + 1) x hokx
          have hA := ihV x (lvl + 1)
            (renA (lvl + 1) xs2 ++ '\n' :: (indC lvl ++ ']' :: rest)) hokx hszx
            (tailOK_renA (lvl + 1) xs2 _)
          have hB := ihA xs2 lvl rest hokxs hszxs htail
          rw [hce] at hA
          show parseVal (f + 1)
            (('[' :: '\n' :: (indC (lvl + 1) ++ renV (lvl + 1) x ++ renA (lvl + 1) xs2 ++
              '\n' :: (indC lvl ++ [']']))) ++ rest) = some (.arr (x :: xs2), rest)
          rw [hce, List.cons_append, List.cons_append, parseVal,
            skipWs_cons_not (by decide)]
          have hr : skipWs ('\n' :: ((indC (lvl + 1) ++ (c :: cr) ++ renA (lvl + 1) xs2 ++
                '\n' :: (indC lvl ++ [']'])) ++ rest))
              = c :: (cr ++ (renA (lvl + 1) xs2 ++ '\n' :: (indC lvl ++ ']' :: rest))) := by
            have he2 : (indC (lvl + 1) ++ (c :: cr) ++ renA (lvl + 1) xs2 ++
                  '\n' :: (indC lvl ++ [']'])) ++ rest
                = indC (lvl + 1) ++ (c :: (cr ++ (renA (lvl + 1) xs2 ++
                  '\n' :: (indC lvl ++ ']' :: rest)))) := by
              simp
            rw [he2, skipWs_nl_ind, skipWs_cons_not hws]
          rw [List.cons_append] at hA
          simp only [hr]
          simp [if_neg hbr, hA, hB]
      | obj kvs =>
        cases kvs with
        | nil => exact parseVal_emptyObj f rest
        | cons kv kvs2 =>
          obtain ⟨k, v⟩ := kv
          obtain ⟨hokk, hokv, hokvs⟩ :
              (∀ ch ∈ k.data, asciiOK ch = true) ∧ renOKV v = true ∧ renOKF kvs2 = true := by
            simpa [renOKV, renOKF, List.all_eq_true, and_assoc] using hok
          have hsz2 : 1 + jsizeV v + jsizeF kvs2 ≤ f + 1 := by simpa [jsizeV] using hsz
          have hszv : jsizeV v ≤ f := by have := jsizeF_pos kvs2; omega
          have hszvs : jsizeF kvs2 ≤ f := by have := jsizeV_pos v; omega
          have hA := ihV v (lvl + 1)
            (renO (lvl + 1) kvs2 ++ '\n' :: (indC lvl ++ '\x7d' :: rest)) hokv hszv
            (tailOK_renO (lvl + 1) kvs2 _)
          have hC := ihO kvs2 lvl rest hokvs hszvs htail
          have hK := parseStrAux_esc k.data []
            (':' :: ' ' :: (renV (lvl + 1) v ++ (renO (lvl + 1) kvs2 ++
              '\n' :: (indC lvl ++ '\x7d' :: rest)))) hokk
          show parseVal (f + 1)
            (('\x7b' :: '\n' :: (indC (lvl + 1) ++
              '"' :: (escList k.data ++ '"' :: ':' :: ' ' :: renV (lvl + 1) v) ++
              renO (lvl + 1) kvs2 ++ '\n' :: (indC lvl ++ ['\x7d']))) ++ rest) =
            some (.obj ((k, v) :: kvs2), rest)
          rw [List.cons_append, List.cons_append, parseVal, skipWs_cons_not (by decide)]
          have hr : skipWs ('\n' :: ((indC (lvl + 1) ++
                '"' :: (escList k.data ++ '"' :: ':' :: ' ' :: renV (lvl + 1) v) ++
                renO (lvl + 1) kvs2 ++ '\n' :: (indC lvl ++ ['\x7d'])) ++ rest))
              = '"' :: (escList k.data ++ '"' :: ':' :: ' ' :: (renV (lvl + 1) v ++
                  (renO (lvl + 1) kvs2 ++ '\n' :: (indC lvl ++ '\x7d' :: rest)))) := by
            have he2 : (indC (lvl + 1) ++
                  '"' :: (escList k.data ++ '"' :: ':' :: ' ' :: renV (lvl + 1) v) ++
                  renO (lvl + 1) kvs2 ++ '\n' :: (indC lvl ++ ['\x7d'])) ++ rest
                = indC (lvl + 1) ++ ('"' :: (escList k.data ++ '"' :: ':' :: ' ' ::
                    (renV (lvl + 1) v ++ (renO (lvl + 1) kvs2 ++
                      '\n' :: (indC lvl ++ '\x7d' :: rest))))) := by
              simp
            rw [he2, skipWs_nl_ind, skipWs_cons_not (by decide)]
          simp only [hr]
          simp only [if_neg (show ¬('\x7b'.isDigit = true ∨ '\x7b' = '-') by decide),
            if_neg (show ¬('\x7b' = '"') by decide),
            if_neg (show ¬('\x7b' = '[') by decide),
            if_pos (show '\x7b' = '\x7b' from rfl),
            if_neg (show ¬('"' = '\x7d') by decide),
            if_pos (show ('"' : Char) = '"' from rfl)]
          rw [hK]
          simp [skipWs_cons_not (show isWsC ':' = false by decide), parseVal_sp, hA, hC]
    · intro xs lvl rest hok hsz htail
      cases xs with
      | nil =>
        show parseArrTail (f + 1) ([] ++ '\n' :: (indC lvl ++ ']' :: rest)) = some ([], rest)
        rw [List.nil_append, parseArrTail, skipWs_nl_ind, skipWs_cons_not (by decide)]
        simp
      | cons x xs2 =>
        obtain ⟨hokx, hokxs⟩ : renOKV x = true ∧ renOKL xs2 = true := by
          simpa [renOKL] using hok
        have hsz2 : 1 + jsizeV x + jsizeL xs2 ≤ f + 1 := by simpa [jsizeL] using hsz
        have hszx : jsizeV x ≤ f := by have := jsizeL_pos xs2; omega
        have hszxs : jsizeL xs2 ≤ f := by have := jsizeV_pos x; omega
        obtain ⟨c, cr, hce, hws, hbr, _⟩ := renV_head (lvl + 1) x hokx
        have hA := ihV x (lvl + 1)
          (renA (lvl + 1) xs2 ++ '\n' :: (indC lvl ++ ']' :: rest)) hokx hszx
          (tailOK_renA (lvl + 1) xs2 _)
        have hB := ihA xs2 lvl rest hokxs hszxs htail
        rw [hce, List.cons_append] at hA
        show parseArrTail (f + 1)
          ((',' :: '\n' :: (indC (lvl + 1) ++ renV (lvl + 1) x ++ renA (lvl + 1) xs2)) ++
            '\n' :: (indC lvl ++ ']' :: rest)) = some (x :: xs2, rest)
        rw [hce, List.cons_append, List.cons_append, parseArrTail,
          skipWs_cons_not (by decide)]
        have hin : parseVal f ('\n' :: (indC (lvl + 1) ++ c :: (cr ++ (renA (lvl + 1) xs2 ++
              '\n' :: (indC lvl ++ ']' :: rest)))))
            = some (x, renA (lvl + 1) xs2 ++ '\n' :: (indC lvl ++ ']' :: rest)) := by
          rw [← parseVal_skipWs, skipWs_nl_ind, skipWs_cons_not hws]
          exact hA
        simp [hin, hB]
    · intro kvs lvl rest hok hsz htail
      cases kvs with
      | nil =>
        show parseObjTail (f + 1) ([] ++ '\n' :: (indC lvl ++ '\x7d' :: rest)) = some ([], rest)
        rw [List.nil_append, parseObjTail, skipWs_nl_ind, skipWs_cons_not (by decide)]
        simp
      | cons kv kvs2 =>
        obtain ⟨k, v⟩ := kv
        obtain ⟨hokk, hokv, hokvs⟩ :
            (∀ ch ∈ k.data, asciiOK ch = true) ∧ renOKV v = true ∧ renOKF kvs2 = true := by
          simpa [renOKF, List.all_eq_true, and_assoc] using hok
        have hsz2 : 1 + jsizeV v + jsizeF kvs2 ≤ f + 1 := by simpa [jsizeF] using hsz
        have hszv : jsizeV v ≤ f := by have := jsizeF_pos kvs2; omega
        have hszvs : jsizeF kvs2 ≤ f := by have := jsizeV_pos v; omega
        have hA := ihV v (lvl + 1)
          (renO (lvl + 1) kvs2 ++ '\n' :: (indC lvl ++ '\x7d' :: rest)) hokv hszv
          (tailOK_renO (lvl + 1) kvs2 _)
        have hC := ihO kvs2 lvl rest hokvs hszvs htail
        have hK := parseStrAux_esc k.data []
          (':' :: ' ' :: (renV (lvl + 1) v ++ (renO (lvl + 1) kvs2 ++
            '\n' :: (indC lvl ++ '\x7d' :: rest)))) hokk
        show parseObjTail (f + 1)
          ((',' :: '\n' :: (indC (lvl + 1) ++
            '"' :: (escList k.data ++ '"' :: ':' :: ' ' :: renV (lvl + 1) v) ++
            renO (lvl + 1) kvs2)) ++ '\n' :: (indC lvl ++ '\x7d' :: rest)) =
          some ((k, v) :: kvs2, rest)
        rw [List.cons_append, List.cons_append, parseObjTail, skipWs_cons_not (by decide)]
        have hr : skipWs ('\n' :: ((indC (lvl + 1) ++
              '"' :: (escList k.data ++ '"' :: ':' :: ' ' :: renV (lvl + 1) v) ++
              renO (lvl + 1) kvs2) ++ '\n' :: (indC lvl ++ '\x7d' :: rest)))
            = '"' :: (escList k.data ++ '"' :: ':' :: ' ' :: (renV (lvl + 1) v ++
                (renO (lvl + 1) kvs2 ++ '\n' :: (indC lvl ++ '\x7d' :: rest)))) := by
          have he2 : (indC (lvl + 1) ++
                '"' :: (escList k.data ++ '"' :: ':' :: ' ' :: renV (lvl + 1) v) ++
                renO (lvl + 1) kvs2) ++ '\n' :: (indC lvl ++ '\x7d' :: rest)
              = indC (lvl + 1) ++ ('"' :: (escList k.data ++ '"' :: ':' :: ' ' ::
                  (renV (lvl + 1) v ++ (renO (lvl + 1) kvs2 ++
                    '\n' :: (indC lvl ++ '\x7d' :: rest))))) := by
            simp
          rw [he2, skipWs_nl_ind, skipWs_cons_not (by decide)]
        simp only [hr]
        simp [hK, skipWs_cons_not (show isWsC ':' = false by decide), parseVal_sp, hA, hC]

mutual

theorem jsizeV_le_len : ∀ (v : Json) (lvl : Nat), renOKV v = true →
    jsizeV v ≤ (renV lvl v).length
  | .null, lvl => by intro _; simp [jsizeV, renV]
  | .bool b, lvl => by intro _; cases b <;> simp [jsizeV, renV]
  | .int n, lvl => by
      intro _
      obtain ⟨h1, _, _⟩ := natChars_spec n.natAbs
      have hl : 1 ≤ (natChars n.natAbs).length := List.length_pos.mpr h1
      simp only [jsizeV, renV, intChars]
      by_cases hneg : n < 0
      · simp only [if_pos hneg, List.length_cons]; omega
      · simp only [if_neg hneg]; omega
  | .float q, lvl => by intro h; simp [renOKV] at h
  | .str s, lvl => by intro _; simp [jsizeV, renV]
  | .arr [], lvl => by intro _; simp [jsizeV, renV]
  | .arr (x :: xs), lvl => by
      intro h
      obtain ⟨hx, hxs⟩ : renOKV x = true ∧ renOKL xs = true := by
        simpa [renOKV, renOKL] using h
      have ihx := jsizeV_le_len x (lvl + 1) hx
      have ihxs := jsizeL_le_len xs (lvl + 1) hxs
      simp only [jsizeV, renV, List.length_cons, List.length_append, indC,
        List.length_replicate] at ihx ihxs ⊢
      omega
  | .obj [], lvl => by intro _; simp [jsizeV, renV]
  | .obj ((k, v) :: kvs), lvl => by
      intro h
      obtain ⟨-, hv, hkvs⟩ :
          (∀ x ∈ k.data, asciiOK x = true) ∧ renOKV v = true ∧ renOKF kvs = true := by
        simpa [renOKV, renOKF, List.all_eq_true, and_assoc] using h
      have ihv := jsizeV_le_len v (lvl + 1) hv
      have ihkvs := jsizeF_le_len kvs (lvl + 1) hkvs
      simp only [jsizeV, renV, List.length_cons, List.length_append, indC,
        List.length_replicate] at ihv ihkvs ⊢
      omega

theorem jsizeL_le_len : ∀ (xs : List Json) (lvl : Nat), renOKL xs = true →
    jsizeL xs ≤ (renA lvl xs).length + 2
  | [], lvl => by intro _; simp [jsizeL, renA]
  | x :: xs, lvl => by
      intro h
      obtain ⟨hx, hxs⟩ : renOKV x = true ∧ renOKL xs = true := by
        simpa [renOKL] using h
      have ihx := jsizeV_le_len x lvl hx
      have ihxs := jsizeL_le_len xs lvl hxs
      simp only [jsizeL, renA, List.length_cons, List.length_append, indC,
        List.length_replicate] at ihx ihxs ⊢
      omega

theorem jsizeF_le_len : ∀ (kvs : List (String × Json)) (lvl : Nat), renOKF kvs = true →
    jsizeF kvs ≤ (renO lvl kvs).length + 2
  | [], lvl => by intro _; simp [jsizeF, renO]
  | (k, v) :: kvs, lvl => by
      intro h
      obtain ⟨-, hv, hkvs⟩ :
          (∀ x ∈ k.data, asciiOK x = true) ∧ renOKV v = true ∧ renOKF kvs = true := by
        simpa [renOKF, List.all_eq_true, and_assoc] using h
      have ihv := jsizeV_le_len v lvl hv
      have ihkvs := jsizeF_le_len kvs lvl hkvs
      simp only [jsizeF, renO, List.length_cons, List.length_append, indC,
        List.length_replicate] at ihv ihkvs ⊢
      omega

end

/-- The serialize-then-parse round trip: on the renderable grammar,
`json.loads` inverts `json.dumps(..., indent=2)`. -/
theorem jsonParse_renderJ (v : Json) (h : renOKV v = true) : jsonParse (renderJ v) = some v := by
  obtain ⟨hA, -, -⟩ := parse_ren_aux ((renderJ v).length + 1)
  have hlen : jsizeV v ≤ (renderJ v).length + 1 := by
    have := jsizeV_le_len v 0 h
    have he : (renderJ v).length = (renV 0 v).length := rfl
    omega
  have hmain := hA v 0 [] h hlen (by simp [tailOKb])
  rw [List.append_nil] at hmain
  rw [jsonParse]
  have hd : (renderJ v).data = renV 0 v := rfl
  rw [hd, hmain]
  simp [skipWs]


/-! ### The plain encoder succeeds exactly on JSON-native values -/

mutual

/-- No datetime/date/`Decimal` anywhere inside: the values plain `json.dumps`
accepts. -/
def plainOKV : PyVal → Bool
  | .none => true
  | .bool _ => true
  | .int _ => true
  | .float _ => true
  | .str _ => true
  | .datetime _ => false
  | .date _ => false
  | .decimal _ => false
  | .list xs => plainOKL xs
  | .dict kvs => plainOKF kvs

def plainOKL : List PyVal → Bool
  | [] => true
  | x :: xs => plainOKV x && plainOKL xs

def plainOKF : List (String × PyVal) → Bool
  | [] => true
  | (_, v) :: kvs => plainOKV v && plainOKF kvs

end

mutual

theorem normP_plain : ∀ v : PyVal, plainOKV v = true → normP v = .ok (normC v)
  | .none, _ => rfl
  | .bool b, _ => rfl
  | .int n, _ => rfl
  | .float q, _ => rfl
  | .str s, _ => rfl
  | .datetime d, h => by simp [plainOKV] at h
  | .date d, h => by simp [plainOKV] at h
  | .decimal q, h => by simp [plainOKV] at h
  | .list xs, h => by
      have h2 : plainOKL xs = true := h
      rw [normP, normC, normPL_plain xs h2]
      rfl
  | .dict kvs, h => by
      have h2 : plainOKF kvs = true := h
      rw [normP, normC, normPF_plain kvs h2]
      rfl

theorem normPL_plain : ∀ xs : List PyVal, plainOKL xs = true → normPL xs = .ok (normCL xs)
  | [], _ => rfl
  | x :: xs, h => by
      obtain ⟨h1, h2⟩ : plainOKV x = true ∧ plainOKL xs = true := by
        simpa [plainOKL] using h
      rw [normPL, normCL, normP_plain x h1, normPL_plain xs h2]
      rfl

theorem normPF_plain : ∀ kvs : List (String × PyVal), plainOKF kvs = true →
    normPF kvs = .ok (normCF kvs)
  | [], _ => rfl
  | (k, v) :: kvs, h => by
      obtain ⟨h1, h2⟩ : plainOKV v = true ∧ plainOKF kvs = true := by
        simpa [plainOKF] using h
      rw [normPF, normCF, normP_plain v h1, normPF_plain kvs h2]
      rfl

end

/-- On JSON-native values, plain `json.dumps` produces the same text as
`safe_json_dumps`. -/
theorem json_dumps_plain (v : PyVal) (h : plainOKV v = true) :
    json_dumps v = .ok (safe_json_dumps v) := by
  rw [json_dumps, normP_plain v h, safe_json_dumps]
  rfl


/-! ## The claims -/

theorem truthyO_some (v : Json) : truthyO (some v) = truthy v := rfl

theorem truthyO_none : truthyO Option.none = false := rfl

/-- C7: Every `GET /health` request (that passes the app-wide API-key gate,
modelled by `AuthOutcome.pass`) returns HTTP status 200 with a body whose
`api_keys_configured` boolean is true iff `API_KEYS` is non-empty and whose
`sql_connection_configured` boolean is true iff `SQL_SERVER_CONNECTION_STRING`
is non-empty — independent of database reachability: `health_check` takes no
database oracle at all. -/
theorem claimC7 (apiKeys connStr : String) :
    (health_route AuthOutcome.pass apiKeys connStr).status = 200
    ∧ ((health_route AuthOutcome.pass apiKeys connStr).body.get "api_keys_configured"
        = some (.bool true) ↔ apiKeys ≠ "")
    ∧ ((health_route AuthOutcome.pass apiKeys connStr).body.get "sql_connection_configured"
        = some (.bool true) ↔ connStr ≠ "")
    ∧ (health_route AuthOutcome.pass apiKeys connStr).body.get "status"
        = some (.str "healthy") := by
  refine ⟨rfl, ?_, ?_, rfl⟩ <;>
    simp [health_route, health_check, JSONResponse, Json.get, getKey]

/-- C10: the executors are total at their public interface: for every
connection string and every database outcome the return value is of the
declared list shape, characterized exhaustively — missing configuration and
raised driver exceptions both collapse into in-band sentinel values, and no
case is left that could propagate an exception to the caller. -/
theorem claimC10 (connStr : String) (q : Json) :
    (∀ (tdb : DbOutcome (List String)) (qdb : DbOutcome (List Row)), connStr = "" →
      get_tables connStr tdb = ["Error: SQL_SERVER_CONNECTION_STRING not configured"]
      ∧ run_query connStr q qdb
          = [[("error", PyVal.str "SQL_SERVER_CONNECTION_STRING not configured")]])
    ∧ (∀ (ts : List String) (rows : List Row), connStr ≠ "" →
      get_tables connStr (.ok ts) = ts ∧ run_query connStr q (.ok rows) = rows)
    ∧ (∀ e : String, connStr ≠ "" →
      get_tables connStr (.raises e) = ["Error: " ++ e]
      ∧ run_query connStr q (.raises e) = [[("error", PyVal.str e)]]) := by
  refine ⟨?_, ?_, ?_⟩ <;> intros <;> simp [get_tables, run_query, *]

theorem claimC10_witness :
    get_tables "" (.ok ["t"]) = ["Error: SQL_SERVER_CONNECTION_STRING not configured"]
    ∧ run_query "" (.str "SELECT 1") (.ok [])
        = [[("error", PyVal.str "SQL_SERVER_CONNECTION_STRING not configured")]] :=
  (claimC10 "" (.str "SELECT 1")).1 (.ok ["t"]) (.ok []) rfl

/-- C2: when the database call raises (`DbOutcome.raises`, only reachable
with a configured connection string), the exception is swallowed: the
executors return sentinel values of the success shape (`get_tables` a list
of strings holding the error text, `run_query` a list with one dict keyed
`"error"`), and on both HTTP tool-call paths the response carries a `result`
payload — the JSON-RPC `error` field stays unused. -/
theorem claimC2 (connStr : String) (e : String) (qv i : Json)
    (hconn : connStr ≠ "") (hq : truthy qv = true) :
    get_tables connStr (.raises e) = ["Error: " ++ e]
    ∧ run_query connStr qv (.raises e) = [[("error", PyVal.str e)]]
    ∧ (mcp_call_tool_handler connStr (.raises e) (.raises e)
        [("id", i), ("params", .obj [("name", .str "get_tables")])]).errorOf = Option.none
    ∧ ((mcp_call_tool_handler connStr (.raises e) (.raises e)
        [("id", i), ("params", .obj [("name", .str "get_tables")])]).resultOf).isSome = true
    ∧ (mcp_call_tool_handler connStr (.raises e) (.raises e)
        [("id", i), ("params", .obj [("name", .str "run_query"),
          ("arguments", .obj [("query", qv)])])]).errorOf = Option.none
    ∧ ((mcp_call_tool_handler connStr (.raises e) (.raises e)
        [("id", i), ("params", .obj [("name", .str "run_query"),
          ("arguments", .obj [("query", qv)])])]).resultOf).isSome = true
    ∧ (mcp_call_tool connStr (.raises e) (.raises e)
        (.obj [("id", i), ("params", .obj [("name", .str "get_tables")])])).errorOf = Option.none
    ∧ ((mcp_call_tool connStr (.raises e) (.raises e)
        (.obj [("id", i), ("params", .obj [("name", .str "get_tables")])])).resultOf).isSome
        = true
    ∧ (mcp_call_tool connStr (.raises e) (.raises e)
        (.obj [("id", i), ("params", .obj [("name", .str "run_query"),
          ("arguments", .obj [("query", qv)])])])).errorOf = Option.none
    ∧ ((mcp_call_tool connStr (.raises e) (.raises e)
        (.obj [("id", i), ("params", .obj [("name", .str "run_query"),
          ("arguments", .obj [("query", qv)])])])).resultOf).isSome = true := by
  have hg : get_tables connStr (.raises e) = ["Error: " ++ e] := by
    simp [get_tables, hconn]
  have hr : run_query connStr qv (.raises e) = [[("error", PyVal.str e)]] := by
    simp [run_query, hconn]
  have hdg : json_dumps (pyOfTables (get_tables connStr (.raises e)))
      = .ok (safe_json_dumps (pyOfTables (get_tables connStr (.raises e)))) := by
    apply json_dumps_plain
    rw [hg]
    rfl
  have hdr : json_dumps (pyOfRows (run_query connStr qv (.raises e)))
      = .ok (safe_json_dumps (pyOfRows (run_query connStr qv (.raises e)))) := by
    apply json_dumps_plain
    rw [hr]
    rfl
  have ht1 : truthy (Json.str "get_tables") = true := by decide
  have ht2 : truthy (Json.str "run_query") = true := by decide
  have ht3 : truthy (Json.obj [("query", qv)]) = true := by simp [truthy]
  refine ⟨hg, hr, ?_, ?_, ?_, ?_, ?_, ?_, ?_, ?_⟩ <;>
    simp [mcp_call_tool_handler, mcp_call_tool, getKey, truthyO, hq, ht1, ht2, ht3, hdg, hdr,
      JSONResponse, jrpcResult, jrpcError, contentResult, Response.errorOf,
      Response.resultOf, Json.get, result_text]

theorem claimC2_witness :
    get_tables "Driver=x" (.raises "timeout") = ["Error: timeout"]
    ∧ run_query "Driver=x" (.str "SELECT 1") (.raises "timeout")
        = [[("error", PyVal.str "timeout")]] :=
  have h := claimC2 "Driver=x" "timeout" (.str "SELECT 1") (.int 3) (by decide) (by decide)
  ⟨h.1, h.2.1⟩

/-- C9: the two tool-call entry points disagree on error code and HTTP
status for identical inputs: an unknown tool name yields -32601 with status
200 on `POST /mcp` (`mcp_call_tool_handler`) but -1 with status 500 on
`POST /mcp/tools/call` (`mcp_call_tool`); a `run_query` call with an empty
`arguments` object yields -32602 / 200 on the former but -1 / 500 on the
latter. -/
theorem claimC9 (connStr : String) (tdb : DbOutcome (List String)) (qdb : DbOutcome (List Row))
    (i : Json) (nm : String) (h1 : nm ≠ "get_tables") (h2 : nm ≠ "run_query") (h3 : nm ≠ "") :
    (mcp_call_tool_handler connStr tdb qdb
      [("id", i), ("params", .obj [("name", .str nm)])]).status = 200
    ∧ (mcp_call_tool_handler connStr tdb qdb
      [("id", i), ("params", .obj [("name", .str nm)])]).errCode = some (.int (-32601))
    ∧ (mcp_call_tool connStr tdb qdb
      (.obj [("id", i), ("params", .obj [("name", .str nm)])])).status = 500
    ∧ (mcp_call_tool connStr tdb qdb
      (.obj [("id", i), ("params", .obj [("name", .str nm)])])).errCode = some (.int (-1))
    ∧ (mcp_call_tool_handler connStr tdb qdb
      [("id", i), ("params", .obj [("name", .str "run_query"),
        ("arguments", .obj [])])]).status = 200
    ∧ (mcp_call_tool_handler connStr tdb qdb
      [("id", i), ("params", .obj [("name", .str "run_query"),
        ("arguments", .obj [])])]).errCode = some (.int (-32602))
    ∧ (mcp_call_tool connStr tdb qdb
      (.obj [("id", i), ("params", .obj [("name", .str "run_query"),
        ("arguments", .obj [])])])).status = 500
    ∧ (mcp_call_tool connStr tdb qdb
      (.obj [("id", i), ("params", .obj [("name", .str "run_query"),
        ("arguments", .obj [])])])).errCode = some (.int (-1)) := by
  have ht1 : truthy (Json.str nm) = true := by simp [truthy, h3]
  have ht2 : truthy (Json.str "run_query") = true := by decide
  have ht4 : truthy (Json.obj ([] : List (String × Json))) = false := by decide
  refine ⟨?_, ?_, ?_, ?_, ?_, ?_, ?_, ?_⟩ <;>
    simp [mcp_call_tool_handler, mcp_call_tool, getKey, truthyO, ht1, ht2, ht4, h1, h2,
      toolCallExc, JSONResponse, jrpcResult, jrpcError, Response.errCode, Response.errorOf,
      Json.get]

theorem claimC9_witness :
    (mcp_call_tool_handler "c" (.ok []) (.ok [])
      [("id", .int 5), ("params", .obj [("name", .str "drop_db")])]).status = 200
    ∧ (mcp_call_tool "c" (.ok []) (.ok [])
      (.obj [("id", .int 5), ("params", .obj [("name", .str "drop_db")])])).status = 500 :=
  have h := claimC9 "c" (.ok []) (.ok []) (.int 5) "drop_db" (by decide) (by decide) (by decide)
  ⟨h.1, h.2.2.1⟩


/-- C1: with `SQL_SERVER_CONNECTION_STRING` unset (empty), every tool call
on either HTTP path returns the executor's in-band configuration-error
sentinel wrapped in a normal JSON-RPC `result` payload with HTTP status 200:
no exception is thrown and the `error` field stays unused. -/
theorem claimC1 (tdb : DbOutcome (List String)) (qdb : DbOutcome (List Row)) (i qv : Json)
    (hq : truthy qv = true) :
    get_tables "" tdb = ["Error: SQL_SERVER_CONNECTION_STRING not configured"]
    ∧ run_query "" qv qdb
        = [[("error", PyVal.str "SQL_SERVER_CONNECTION_STRING not configured")]]
    ∧ (mcp_call_tool_handler "" tdb qdb
        [("id", i), ("params", .obj [("name", .str "get_tables")])]).status = 200
    ∧ (mcp_call_tool_handler "" tdb qdb
        [("id", i), ("params", .obj [("name", .str "get_tables")])]).errorOf = Option.none
    ∧ (mcp_call_tool_handler "" tdb qdb
        [("id", i), ("params", .obj [("name", .str "get_tables")])]).contentText
        = some (safe_json_dumps
            (PyVal.list [PyVal.str "Error: SQL_SERVER_CONNECTION_STRING not configured"]))
    ∧ (mcp_call_tool_handler "" tdb qdb
        [("id", i), ("params", .obj [("name", .str "run_query"),
          ("arguments", .obj [("query", qv)])])]).status = 200
    ∧ (mcp_call_tool_handler "" tdb qdb
        [("id", i), ("params", .obj [("name", .str "run_query"),
          ("arguments", .obj [("query", qv)])])]).errorOf = Option.none
    ∧ (mcp_call_tool_handler "" tdb qdb
        [("id", i), ("params", .obj [("name", .str "run_query"),
          ("arguments", .obj [("query", qv)])])]).contentText
        = some (safe_json_dumps (PyVal.list [PyVal.dict
            [("error", PyVal.str "SQL_SERVER_CONNECTION_STRING not configured")]]))
    ∧ (mcp_call_tool "" tdb qdb
        (.obj [("id", i), ("params", .obj [("name", .str "get_tables")])])).status = 200
    ∧ (mcp_call_tool "" tdb qdb
        (.obj [("id", i), ("params", .obj [("name", .str "get_tables")])])).errorOf
        = Option.none
    ∧ (mcp_call_tool "" tdb qdb
        (.obj [("id", i), ("params", .obj [("name", .str "get_tables")])])).contentText
        = some (safe_json_dumps
            (PyVal.list [PyVal.str "Error: SQL_SERVER_CONNECTION_STRING not configured"]))
    ∧ (mcp_call_tool "" tdb qdb
        (.obj [("id", i), ("params", .obj [("name", .str "run_query"),
          ("arguments", .obj [("query", qv)])])])).status = 200
    ∧ (mcp_call_tool "" tdb qdb
        (.obj [("id", i), ("params", .obj [("name", .str "run_query"),
          ("arguments", .obj [("query", qv)])])])).errorOf = Option.none
    ∧ (mcp_call_tool "" tdb qdb
        (.obj [("id", i), ("params", .obj [("name", .str "run_query"),
          ("arguments", .obj [("query", qv)])])])).contentText
        = some (safe_json_dumps (PyVal.list [PyVal.dict
            [("error", PyVal.str "SQL_SERVER_CONNECTION_STRING not configured")]])) := by
  have hg : get_tables "" tdb = ["Error: SQL_SERVER_CONNECTION_STRING not configured"] := by
    simp [get_tables]
  have hr : run_query "" qv qdb
      = [[("error", PyVal.str "SQL_SERVER_CONNECTION_STRING not configured")]] := by
    simp [run_query]
  have hdg : json_dumps (PyVal.list [PyVal.str "Error: SQL_SERVER_CONNECTION_STRING not configured"])
      = .ok (safe_json_dumps (PyVal.list
          [PyVal.str "Error: SQL_SERVER_CONNECTION_STRING not configured"])) :=
    json_dumps_plain _ (by rfl)
  have hdr : json_dumps (PyVal.list [PyVal.dict
        [("error", PyVal.str "SQL_SERVER_CONNECTION_STRING not configured")]])
      = .ok (safe_json_dumps (PyVal.list [PyVal.dict
          [("error", PyVal.str "SQL_SERVER_CONNECTION_STRING not configured")]])) :=
    json_dumps_plain _ (by rfl)
  have ht1 : truthy (Json.str "get_tables") = true := by decide
  have ht2 : truthy (Json.str "run_query") = true := by decide
  have ht3 : truthy (Json.obj [("query", qv)]) = true := by simp [truthy]
  refine ⟨hg, hr, ?_, ?_, ?_, ?_, ?_, ?_, ?_, ?_, ?_, ?_, ?_, ?_⟩ <;>
    simp [mcp_call_tool_handler, mcp_call_tool, getKey, truthyO, hq, ht1, ht2, ht3,
      hg, hr, hdg, hdr, JSONResponse, jrpcResult, jrpcError, contentResult,
      Response.errorOf, Response.resultOf, Response.contentText, Response.status,
      Json.get, result_text, pyOfTables, pyOfRows]

theorem claimC1_witness :
    get_tables "" (.ok ["t"]) = ["Error: SQL_SERVER_CONNECTION_STRING not configured"]
    ∧ (mcp_call_tool_handler "" (.ok ["t"]) (.ok [])
        [("id", .int 7), ("params", .obj [("name", .str "get_tables")])]).status = 200 :=
  have h := claimC1 (.ok ["t"]) (.ok []) (.int 7) (.str "SELECT 1") (by decide)
  ⟨h.1, h.2.2.1⟩

/-- C3: a `POST /mcp` request whose `method` is none of `initialize`,
`tools/list`, `tools/call` gets a JSON-RPC error with code -32601, HTTP
status 200, and the request id echoed back. -/
theorem claimC3 (connStr : String) (tdb : DbOutcome (List String)) (qdb : DbOutcome (List Row))
    (kvs : List (String × Json)) (i : Json)
    (hm : getKey "method" kvs ∉
      [some (Json.str "initialize"), some (Json.str "tools/list"), some (Json.str "tools/call")])
    (hi : getKey "id" kvs = some i) :
    mcp_handler connStr tdb qdb .post (.obj kvs)
      = ⟨200, jrpcError i (-32601) ("Method not found: " ++ pyStrOpt (getKey "method" kvs))⟩ := by
  simp only [List.mem_cons, List.mem_singleton, not_or] at hm
  obtain ⟨h1, h2, h3, -⟩ := hm
  rw [mcp_handler]
  simp only [if_neg h1, if_neg h2, if_neg h3, hi, Option.getD_some]
  rfl

theorem claimC3_witness :
    mcp_handler "c" (.ok []) (.ok []) .post
        (.obj [("method", .str "ping"), ("id", .int 7)])
      = ⟨200, jrpcError (.int 7) (-32601) "Method not found: ping"⟩ := by
  have h := claimC3 "c" (.ok []) (.ok []) [("method", .str "ping"), ("id", .int 7)] (.int 7)
    (by decide) (by decide)
  simpa using h

/-- C6: every valid `tools/list` request — `POST /mcp` with method
`tools/list`, `GET /mcp/tools/list`, or `POST /mcp/tools/list` with an
object body — returns exactly the two tools `get_tables` (object schema
with empty `properties`, nothing required) and `run_query` (single required
string property `query`). -/
theorem claimC6 (connStr : String) (tdb : DbOutcome (List String)) (qdb : DbOutcome (List Row))
    (kvs kvs2 kvs3 : List (String × Json)) :
    (mcp_handler connStr tdb qdb .post (.obj (("method", Json.str "tools/list") :: kvs))).resultOf
      = some (.obj [("tools", .arr [
        .obj [("name", .str "get_tables"),
              ("description", .str "Get all database tables"),
              ("inputSchema", .obj [("type", .str "object"),
                                    ("properties", .obj []),
                                    ("required", .arr [])])],
        .obj [("name", .str "run_query"),
              ("description", .str "Execute a SQL query"),
              ("inputSchema", .obj [("type", .str "object"),
                                    ("properties", .obj [("query",
                                        .obj [("type", .str "string"),
                                              ("description", .str "SQL query to execute")])]),
                                    ("required", .arr [.str "query"])])]])])
    ∧ (mcp_list_tools_handler kvs2).resultOf
      = some (.obj [("tools", tools_list_http)])
    ∧ (mcp_list_tools Option.none).resultOf = some (.obj [("tools", tools_list_http)])
    ∧ (mcp_list_tools (some (.obj kvs3))).resultOf = some (.obj [("tools", tools_list_http)]) := by
  refine ⟨?_, ?_, ?_, ?_⟩ <;>
    simp [mcp_handler, mcp_list_tools_handler, mcp_list_tools, getKey, tools_list_http,
      JSONResponse, jrpcResult, Response.resultOf, Json.get]

/-- Python-truthiness failure of a `run_query` `query` argument: the
arguments value either is not a dict at all, or its `query` entry is absent
or falsy — exactly the situations in which `arguments.get("query")`
produces nothing usable on line 207/348 of src/main.py. -/
def queryMissing : Json → Bool
  | .obj akvs => !truthyO (getKey "query" akvs)
  | _ => true

/-- C4: a `tools/call` of `run_query` whose arguments carry no (truthy)
`query` value gets a JSON-RPC error response on every transport path —
`POST /mcp` (dispatching through `mcp_handler`), `mcp_call_tool_handler`
directly, and `POST /mcp/tools/call` — and never an unhandled exception:
each path is a total function into a `Response` whose `error` field is set. -/
theorem claimC4 (connStr : String) (tdb : DbOutcome (List String)) (qdb : DbOutcome (List Row))
    (i : Json) (args : Json) (h : queryMissing args = true) :
    ((mcp_handler connStr tdb qdb .post (.obj [("method", .str "tools/call"), ("id", i),
        ("params", .obj [("name", .str "run_query"),
          ("arguments", args)])])).errorOf).isSome = true
    ∧ ((mcp_call_tool_handler connStr tdb qdb [("method", .str "tools/call"), ("id", i),
        ("params", .obj [("name", .str "run_query"),
          ("arguments", args)])]).errorOf).isSome = true
    ∧ ((mcp_call_tool connStr tdb qdb (.obj [("method", .str "tools/call"), ("id", i),
        ("params", .obj [("name", .str "run_query"),
          ("arguments", args)])])).errorOf).isSome = true := by
  have ht2 : truthy (Json.str "run_query") = true := by decide
  have hdisp : mcp_handler connStr tdb qdb .post (.obj [("method", .str "tools/call"), ("id", i),
      ("params", .obj [("name", .str "run_query"), ("arguments", args)])])
      = mcp_call_tool_handler connStr tdb qdb [("method", .str "tools/call"), ("id", i),
        ("params", .obj [("name", .str "run_query"), ("arguments", args)])] := by
    rw [mcp_handler]
    simp [getKey]
  rw [hdisp]
  have hh : ((mcp_call_tool_handler connStr tdb qdb [("method", .str "tools/call"), ("id", i),
      ("params", .obj [("name", .str "run_query"),
        ("arguments", args)])]).errorOf).isSome = true := by
    cases args with
    | obj akvs =>
      have hq : truthyO (getKey "query" akvs) = false := by
        simpa [queryMissing] using h
      simp [mcp_call_tool_handler, getKey, truthyO_some, truthyO_none, ht2, hq, JSONResponse, jrpcError,
        Response.errorOf, Json.get]
    | _ =>
      simp [mcp_call_tool_handler, getKey, truthyO_some, truthyO_none, ht2, JSONResponse, jrpcError,
        Response.errorOf, Json.get]
  refine ⟨hh, hh, ?_⟩
  cases args with
  | obj akvs =>
    have hq : truthyO (getKey "query" akvs) = false := by
      simpa [queryMissing] using h
    by_cases hne : akvs.isEmpty = true
    · have haz : akvs = [] := by simpa using hne
      subst haz
      simp [mcp_call_tool, getKey, truthyO_some, truthyO_none, ht2, truthy, toolCallExc,
        jrpcError, Response.errorOf, Json.get]
    · have htr : truthy (Json.obj akvs) = true := by simp [truthy, hne]
      simp [mcp_call_tool, getKey, truthyO_some, truthyO_none, ht2, htr, hq, toolCallExc,
        jrpcError, Response.errorOf, Json.get]
  | null =>
    simp [mcp_call_tool, getKey, truthyO_some, truthyO_none, ht2, truthy, toolCallExc,
      jrpcError, Response.errorOf, Json.get]
  | bool b =>
    cases b <;>
      simp [mcp_call_tool, getKey, truthyO_some, truthyO_none, ht2, truthy, toolCallExc,
        jrpcError, Response.errorOf, Json.get]
  | int n =>
    by_cases hz : n = 0 <;>
      simp [mcp_call_tool, getKey, truthyO_some, truthyO_none, ht2, truthy, hz, toolCallExc,
        jrpcError, Response.errorOf, Json.get]
  | float q =>
    by_cases hz : q = 0 <;>
      simp [mcp_call_tool, getKey, truthyO_some, truthyO_none, ht2, truthy, hz, toolCallExc,
        jrpcError, Response.errorOf, Json.get]
  | str s =>
    by_cases hz : s = "" <;>
      simp [mcp_call_tool, getKey, truthyO_some, truthyO_none, ht2, truthy, hz, toolCallExc,
        jrpcError, Response.errorOf, Json.get]
  | arr xs =>
    cases xs <;>
      simp [mcp_call_tool, getKey, truthyO_some, truthyO_none, ht2, truthy, toolCallExc,
        jrpcError, Response.errorOf, Json.get]

theorem claimC4_witness :
    queryMissing (.obj [("query", .str "")]) = true
    ∧ ((mcp_call_tool "c" (.ok []) (.ok []) (.obj [("method", .str "tools/call"),
        ("id", .int 2), ("params", .obj [("name", .str "run_query"),
          ("arguments", .obj [("query", .str "")])])])).errorOf).isSome = true :=
  ⟨by decide, (claimC4 "c" (.ok []) (.ok []) (.int 2) (.obj [("query", .str "")])
      (by decide)).2.2⟩


/-- C5 as frozen is refuted at a concrete input: a `run_query` call that
carries a (truthy) `query` argument, whose executor result is one row
holding a `datetime`.  On `POST /mcp/tools/call` the plain `json.dumps`
(src/main.py line 365) raises `TypeError` on that row, the `except` turns
the call into an error response — there is no `result.content[0].text` at
all, so nothing parses back to the executor's rows. -/
theorem claimC5_counterexample :
    run_query "Driver=x" (.str "SELECT ts FROM t")
        (.ok [[("ts", PyVal.datetime ⟨2024, 1, 2, 3, 4, 5, 0⟩)]])
      = [[("ts", PyVal.datetime ⟨2024, 1, 2, 3, 4, 5, 0⟩)]]
    ∧ (mcp_call_tool "Driver=x" (.ok [])
        (.ok [[("ts", PyVal.datetime ⟨2024, 1, 2, 3, 4, 5, 0⟩)]])
        (.obj [("id", .int 1), ("params", .obj [("name", .str "run_query"),
          ("arguments", .obj [("query", .str "SELECT ts FROM t")])])])).contentText
      = Option.none
    ∧ (mcp_call_tool "Driver=x" (.ok [])
        (.ok [[("ts", PyVal.datetime ⟨2024, 1, 2, 3, 4, 5, 0⟩)]])
        (.obj [("id", .int 1), ("params", .obj [("name", .str "run_query"),
          ("arguments", .obj [("query", .str "SELECT ts FROM t")])])])).status = 500 := by
  decide

/-- C5 (amended): for every `tools/call` of `run_query` carrying a truthy
`query` argument, the response text round-trips: on `POST /mcp`
(`mcp_call_tool_handler`) `result.content[0].text` parses back to exactly
the JSON image of the executor's returned rows (datetimes/dates appear as
their ISO strings per the custom encoder) whenever that image lies in the
verified serialization grammar; on `POST /mcp/tools/call` (`mcp_call_tool`)
the same holds only when the rows are JSON-native (no datetime/date/Decimal)
— otherwise that path answers with an error instead (see the
counterexample). -/
theorem claimC5 (connStr : String) (tdb : DbOutcome (List String)) (qdb : DbOutcome (List Row))
    (body pkvs akvs : List (String × Json)) (qv : Json)
    (hp : getKey "params" body = some (.obj pkvs))
    (hn : getKey "name" pkvs = some (.str "run_query"))
    (ha : getKey "arguments" pkvs = some (.obj akvs))
    (hq : getKey "query" akvs = some qv) (hqt : truthy qv = true)
    (hren : renOKV (normC (pyOfRows (run_query connStr qv qdb))) = true) :
    ((mcp_call_tool_handler connStr tdb qdb body).contentText).bind jsonParse
      = some (normC (pyOfRows (run_query connStr qv qdb)))
    ∧ (plainOKV (pyOfRows (run_query connStr qv qdb)) = true →
      ((mcp_call_tool connStr tdb qdb (.obj body)).contentText).bind jsonParse
        = some (normC (pyOfRows (run_query connStr qv qdb)))) := by
  have hane : akvs ≠ [] := by
    intro he
    rw [he] at hq
    cases hq
  have htra : truthy (Json.obj akvs) = true := by
    cases akvs with
    | nil => exact absurd rfl hane
    | cons a as => simp [truthy]
  have ht2 : truthy (Json.str "run_query") = true := by decide
  constructor
  · have htext : (mcp_call_tool_handler connStr tdb qdb body).contentText
        = some (safe_json_dumps (pyOfRows (run_query connStr qv qdb))) := by
      simp [mcp_call_tool_handler, hp, hn, ha, hq, truthyO_some, hqt, JSONResponse,
        jrpcResult, contentResult, result_text, Response.contentText, Response.resultOf,
        Json.get, getKey]
    rw [htext]
    show jsonParse (renderJ (normC (pyOfRows (run_query connStr qv qdb)))) = _
    exact jsonParse_renderJ _ hren
  · intro hplain
    have hdump := json_dumps_plain _ hplain
    have htext : (mcp_call_tool connStr tdb qdb (.obj body)).contentText
        = some (safe_json_dumps (pyOfRows (run_query connStr qv qdb))) := by
      simp [mcp_call_tool, hp, hn, ha, hq, truthyO_some, hqt, htra, ht2, hdump, JSONResponse,
        jrpcResult, contentResult, Response.contentText, Response.resultOf,
        Json.get, getKey]
    rw [htext]
    show jsonParse (renderJ (normC (pyOfRows (run_query connStr qv qdb)))) = _
    exact jsonParse_renderJ _ hren

theorem claimC5_witness :
    truthy (Json.str "SELECT 1") = true
    ∧ renOKV (normC (pyOfRows (run_query "Driver=x" (.str "SELECT 1")
        (.ok [[("a", PyVal.int 1), ("ts", PyVal.datetime ⟨2024, 1, 2, 3, 4, 5, 0⟩)]])))) = true
    ∧ ((mcp_call_tool_handler "Driver=x" (.ok [])
        (.ok [[("a", PyVal.int 1), ("ts", PyVal.datetime ⟨2024, 1, 2, 3, 4, 5, 0⟩)]])
        [("id", .int 1), ("params", .obj [("name", .str "run_query"),
          ("arguments", .obj [("query", .str "SELECT 1")])])]).contentText).bind jsonParse
      = some (normC (pyOfRows (run_query "Driver=x" (.str "SELECT 1")
          (.ok [[("a", PyVal.int 1), ("ts", PyVal.datetime ⟨2024, 1, 2, 3, 4, 5, 0⟩)]])))) :=
  ⟨by decide, by decide,
    (claimC5 "Driver=x" (.ok [])
      (.ok [[("a", PyVal.int 1), ("ts", PyVal.datetime ⟨2024, 1, 2, 3, 4, 5, 0⟩)]])
      [("id", .int 1), ("params", .obj [("name", .str "run_query"),
        ("arguments", .obj [("query", .str "SELECT 1")])])]
      [("name", .str "run_query"), ("arguments", .obj [("query", .str "SELECT 1")])]
      [("query", .str "SELECT 1")] (.str "SELECT 1")
      (by decide) (by decide) (by decide) (by decide) (by decide) (by decide)).1⟩

/-- C8 as frozen is refuted at a concrete input: a `Decimal` row value on the
`POST /mcp/tools/call` path is not serialized as a float — that path calls
plain `json.dumps` without `CustomJSONEncoder` (src/main.py line 365), the
encoder raises `TypeError`, and the request answers with error code -1 and
status 500 instead of any serialized row. -/
theorem claimC8_counterexample :
    (mcp_call_tool "Driver=x" (.ok [])
        (.ok [[("amount", PyVal.decimal (mkRat 5 2))]])
        (.obj [("id", .int 1), ("params", .obj [("name", .str "run_query"),
          ("arguments", .obj [("query", .str "SELECT amount FROM t")])])])).status = 500
    ∧ (mcp_call_tool "Driver=x" (.ok [])
        (.ok [[("amount", PyVal.decimal (mkRat 5 2))]])
        (.obj [("id", .int 1), ("params", .obj [("name", .str "run_query"),
          ("arguments", .obj [("query", .str "SELECT amount FROM t")])])])).contentText
      = Option.none
    ∧ (mcp_call_tool "Driver=x" (.ok [])
        (.ok [[("amount", PyVal.decimal (mkRat 5 2))]])
        (.obj [("id", .int 1), ("params", .obj [("name", .str "run_query"),
          ("arguments", .obj [("query", .str "SELECT amount FROM t")])])])).errCode
      = some (.int (-1)) := by
  decide

/-- C8 (amended): the per-type serialization contract holds exactly where
`CustomJSONEncoder` is applied.  `CustomJSONEncoder.default` maps
datetime/date values to their ISO-8601 `isoformat()` strings and `Decimal`s
to floats (modelled exactly), `normC` pushes that contract through nested
rows, and the `POST /mcp` handler serializes executor rows with it.  The
`POST /mcp/tools/call` path does not: with a datetime-valued row (and a
configured connection string) it answers 500 / code -1 with the `TypeError`
text instead. -/
theorem claimC8 (dt : PyDateTime) (d : PyDate) (q : Rat) (connStr : String)
    (tdb : DbOutcome (List String)) (qdb : DbOutcome (List Row))
    (body pkvs akvs : List (String × Json)) (qv : Json)
    (hconn : connStr ≠ "")
    (hp : getKey "params" body = some (.obj pkvs))
    (hn : getKey "name" pkvs = some (.str "run_query"))
    (ha : getKey "arguments" pkvs = some (.obj akvs))
    (hq : getKey "query" akvs = some qv) (hqt : truthy qv = true) :
    CustomJSONEncoder.default (.datetime dt) = some (.str dt.isoformat)
    ∧ CustomJSONEncoder.default (.date d) = some (.str d.isoformat)
    ∧ CustomJSONEncoder.default (.decimal q) = some (.float q)
    ∧ normC (.datetime dt) = .str dt.isoformat
    ∧ normC (.date d) = .str d.isoformat
    ∧ normC (.decimal q) = .float q
    ∧ (mcp_call_tool_handler connStr tdb qdb body).contentText
        = some (safe_json_dumps (pyOfRows (run_query connStr qv qdb)))
    ∧ (mcp_call_tool connStr tdb (.ok [[("ts", PyVal.datetime dt)]]) (.obj body)).status = 500
    ∧ (mcp_call_tool connStr tdb (.ok [[("ts", PyVal.datetime dt)]]) (.obj body)).errCode
        = some (.int (-1)) := by
  have hane : akvs ≠ [] := by
    intro he
    rw [he] at hq
    cases hq
  have htra : truthy (Json.obj akvs) = true := by
    cases akvs with
    | nil => exact absurd rfl hane
    | cons a as => simp [truthy]
  have ht2 : truthy (Json.str "run_query") = true := by decide
  have hrowq : run_query connStr qv (.ok [[("ts", PyVal.datetime dt)]])
      = [[("ts", PyVal.datetime dt)]] := by
    simp [run_query, hconn]
  have hdget : json_dumps (pyOfRows [[("ts", PyVal.datetime dt)]])
      = .error "Object of type datetime is not JSON serializable" := rfl
  refine ⟨rfl, rfl, rfl, rfl, rfl, rfl, ?_, ?_, ?_⟩
  · simp [mcp_call_tool_handler, hp, hn, ha, hq, truthyO_some, hqt, JSONResponse,
      jrpcResult, contentResult, result_text, Response.contentText, Response.resultOf,
      Json.get, getKey]
  · simp [mcp_call_tool, hp, hn, ha, hq, truthyO_some, hqt, htra, ht2, hrowq, hdget,
      toolCallExc, jrpcError, Json.get, getKey]
  · simp [mcp_call_tool, hp, hn, ha, hq, truthyO_some, hqt, htra, ht2, hrowq, hdget,
      toolCallExc, jrpcError, Response.errCode, Response.errorOf, Json.get, getKey]

theorem claimC8_witness :
    normC (.datetime ⟨2024, 1, 2, 3, 4, 5, 0⟩) = .str "2024-01-02T03:04:05"
    ∧ (mcp_call_tool "Driver=x" (.ok [])
        (.ok [[("ts", PyVal.datetime ⟨2024, 1, 2, 3, 4, 5, 0⟩)]])
        (.obj [("id", .int 1), ("params", .obj [("name", .str "run_query"),
          ("arguments", .obj [("query", .str "SELECT 1")])])])).status = 500 :=
  have h := claimC8 ⟨2024, 1, 2, 3, 4, 5, 0⟩ ⟨2024, 1, 2⟩ (mkRat 5 2) "Driver=x"
    (.ok []) (.ok [])
    [("id", .int 1), ("params", .obj [("name", .str "run_query"),
      ("arguments", .obj [("query", .str "SELECT 1")])])]
    [("name", .str "run_query"), ("arguments", .obj [("query", .str "SELECT 1")])]
    [("query", .str "SELECT 1")] (.str "SELECT 1")
    (by decide) (by decide) (by decide) (by decide) (by decide) (by decide)
  ⟨by rw [h.2.2.2.1]; decide, h.2.2.2.2.2.2.2.1⟩

end SqlMcp
